import Mathlib

/-!
# GBTP bank server: shallow embedding and verification

A shallow embedding of the GBTP banking server (protocol codec, request
validation, ledger engine, dispatcher) and proofs of the spec's claims
about it.

JS strings are modelled as lists of characters; JS numbers (balances and
amounts) are modelled as rationals.  Fallible code (JS `throw`) is
modelled with `Except`/`Option` results.
-/

/-- JS strings are modelled as lists of characters. -/
abbrev Str := List Char

/-- Embed a Lean string literal into the character-list model. -/
def str (s : String) : Str := s.data

/-- JS whitespace test used by `String.prototype.trim` (common cases). -/
def wsB (c : Char) : Bool := c.isWhitespace

/-- JS `String.prototype.trim`: drop whitespace from both ends. -/
def trimChars (l : Str) : Str :=
  ((l.dropWhile wsB).reverse.dropWhile wsB).reverse

/-- JS `String.prototype.toUpperCase` (ASCII range, as used here). -/
def upperChars (l : Str) : Str := l.map Char.toUpper

/-- JS `String.prototype.split(sep)` for a one-character separator:
splits on every occurrence, keeping empty segments. -/
def splitCh (c : Char) : Str → List Str
  | [] => [[]]
  | x :: xs =>
    if x = c then [] :: splitCh c xs
    else
      match splitCh c xs with
      | [] => [[x]]
      | s :: ss => (x :: s) :: ss

/-! ## JS `Number(string)` (decimal fragment)

Models the decimal-literal fragment of the JS `Number()` conversion:
whitespace is trimmed, the empty string converts to 0, and an optional
sign is followed by digits with an optional fraction and exponent.
`none` stands for NaN.  The `Infinity` and radix-prefixed (`0x…`) forms
are not representable in the rational model and are mapped to `none`;
no value handled by this repository uses them. -/

/-- Numeric value of a list of decimal digit characters. -/
def digitsVal (l : Str) : ℕ :=
  l.foldl (fun a c => 10 * a + (c.toNat - 48)) 0

/-- Parse an optional exponent suffix; the whole rest must be consumed. -/
def parseExp : Str → Option ℤ
  | [] => some 0
  | c :: rest =>
    if c = 'e' ∨ c = 'E' then
      match rest with
      | '+' :: ds =>
        if ds ≠ [] ∧ ds.all Char.isDigit then some (digitsVal ds) else none
      | '-' :: ds =>
        if ds ≠ [] ∧ ds.all Char.isDigit then some (-(digitsVal ds : ℤ)) else none
      | ds =>
        if ds ≠ [] ∧ ds.all Char.isDigit then some (digitsVal ds) else none
    else none

/-- Parse an unsigned decimal literal (digits, optional point, optional
exponent); the whole input must be consumed. -/
def parseDec (l : Str) : Option ℚ :=
  let ip := l.takeWhile Char.isDigit
  let rest := l.dropWhile Char.isDigit
  match rest with
  | '.' :: rest2 =>
    let fp := rest2.takeWhile Char.isDigit
    let rest3 := rest2.dropWhile Char.isDigit
    if ip = [] ∧ fp = [] then none
    else
      (parseExp rest3).map fun e =>
        ((digitsVal ip : ℚ) + (digitsVal fp : ℚ) / 10 ^ fp.length) * (10 : ℚ) ^ e
  | _ =>
    if ip = [] then none
    else (parseExp rest).map fun e => (digitsVal ip : ℚ) * (10 : ℚ) ^ e

/-- JS `Number(string)`: trim, empty ↦ 0, optional sign, decimal body. -/
def jsNumber (l : Str) : Option ℚ :=
  let t := trimChars l
  if t = [] then some 0
  else
    match t with
    | [] => none
    | c :: rest =>
      if c = '-' then (parseDec rest).map fun q => -q
      else if c = '+' then parseDec rest
      else parseDec t

/-! ## Field value objects (`protocol/entities`)

Each wraps a raw string; `validate` is a boolean predicate, exactly as
in the source classes. -/

/-- `Operation.ALLOWED_TYPES`. -/
def allowedTypes : List Str :=
  [str "TRANSFER", str "WITHDRAW", str "DEPOSIT", str "BALANCE"]

/-- `Operation.validate()`: the (stored, already upper-cased) type is
one of the allowed operation names. -/
def operationValidate (t : Str) : Bool := allowedTypes.contains t

/-- `ID.validate()`: trimmed id is non-empty and `Number(id)` is not NaN. -/
def idValidate (i : Str) : Bool :=
  decide (trimChars i ≠ []) && (jsNumber i).isSome

/-- `Value.validate()`: non-empty after trim, numeric and `≥ 0`. -/
def valueValidate (v : Str) : Bool :=
  if trimChars v = [] then false
  else
    match jsNumber v with
    | some q => decide (0 ≤ q)
    | none => false

/-- `Status.validate()` on the stored (upper-cased) status. -/
def statusValidate (s : Str) : Bool :=
  decide (s = str "OK") || decide (s = str "ERROR")

/-- `Message.validate()`: trimmed content non-empty. -/
def messageValidate (m : Str) : Bool := decide (trimChars m ≠ [])

/-- `Balance.validate()`: same rule as `Value.validate()`. -/
def balanceValidate (b : Str) : Bool :=
  if trimChars b = [] then false
  else
    match jsNumber (trimChars b) with
    | some q => decide (0 ≤ q)
    | none => false

/-- `Number(value) <= 0` with JS NaN semantics (NaN compares false). -/
def jsLe0 (v : Str) : Bool :=
  match jsNumber v with
  | some q => decide (q ≤ 0)
  | none => false

/-- `Number(value) !== 0` with JS NaN semantics (NaN is `!== 0`). -/
def jsNe0 (v : Str) : Bool :=
  match jsNumber v with
  | some q => decide (q ≠ 0)
  | none => true

/-! ## Ledger engine (`services/bank-service.ts`)

The account map is an association list from identifier to balance; the
durable snapshot (`accounts.json`) is the `saved` component, rewritten
in full by `saveToFile` after every mutation.  A JS `throw` before any
mutation is modelled by returning the unchanged state together with an
`Except.error` carrying the exception's message. -/

/-- Ledger engine state: in-memory account map plus persisted snapshot. -/
structure BankState where
  accounts : List (Str × ℚ)
  saved : List (Str × ℚ)
  deriving DecidableEq

/-- `Map.get`: first binding of the key, if any. -/
def lookupAcc (m : List (Str × ℚ)) (k : Str) : Option ℚ :=
  (m.find? fun p => decide (p.1 = k)).map (·.2)

/-- In-place mutation of the balance stored under a key. -/
def updateAcc (m : List (Str × ℚ)) (k : Str) (v : ℚ) : List (Str × ℚ) :=
  m.map fun p => if p.1 = k then (p.1, v) else p

/-- The default accounts created by `createDefaultAccountsFile`. -/
def defaultAccounts : List (Str × ℚ) :=
  [(str "1001", 500), (str "1002", 1000), (str "1003", 250)]

/-- Freshly started service: default accounts loaded from the snapshot. -/
def defaultState : BankState :=
  { accounts := defaultAccounts, saved := defaultAccounts }

/-- `BankService.getBalance`: no mutation, no persistence. -/
def getBalance (s : BankState) (accountId : Str) : BankState × Except Str ℚ :=
  match lookupAcc s.accounts accountId with
  | none => (s, .error (str "Conta de origem inexistente"))
  | some b => (s, .ok b)

/-- `BankService.deposit`. -/
def deposit (s : BankState) (accountId : Str) (amount : ℚ) :
    BankState × Except Str ℚ :=
  match lookupAcc s.accounts accountId with
  | none => (s, .error (str "Conta de origem inexistente"))
  | some b =>
    if amount ≤ 0 then (s, .error (str "Valor inválido para depósito"))
    else
      let accounts2 := updateAcc s.accounts accountId (b + amount)
      ({ accounts := accounts2, saved := accounts2 }, .ok (b + amount))

/-- `BankService.withdraw`. -/
def withdraw (s : BankState) (accountId : Str) (amount : ℚ) :
    BankState × Except Str ℚ :=
  match lookupAcc s.accounts accountId with
  | none => (s, .error (str "Conta de origem inexistente"))
  | some b =>
    if amount ≤ 0 then (s, .error (str "Valor inválido para saque"))
    else if b < amount then (s, .error (str "Saldo insuficiente"))
    else
      let accounts2 := updateAcc s.accounts accountId (b - amount)
      ({ accounts := accounts2, saved := accounts2 }, .ok (b - amount))

/-! ## Balance formatting: `Number.prototype.toFixed(2)`

Per the ECMA algorithm: pick the integer `n` with `n / 100` closest to
the value, larger `n` on ties (round half up), and print `n` with the
decimal point inserted two digits from the right. -/

/-- Decimal digits of a natural number (fuel-based helper). -/
def natToCharsAux : ℕ → ℕ → Str
  | 0, _ => []
  | fuel + 1, n =>
    if n < 10 then [Nat.digitChar n]
    else natToCharsAux fuel (n / 10) ++ [Nat.digitChar (n % 10)]

/-- Decimal digit string of a natural number. -/
def natToChars (n : ℕ) : Str := natToCharsAux (n + 1) n

/-- Two-digit zero-padded rendering of `k < 100`. -/
def twoDigitChars (k : ℕ) : Str :=
  if k < 10 then '0' :: natToChars k else natToChars k

/-- Render `n` (hundredths) as a fixed-point numeral with 2 fraction digits. -/
def toFixed2Nat (n : ℕ) : Str :=
  natToChars (n / 100) ++ '.' :: twoDigitChars (n % 100)

/-- JS `q.toFixed(2)`. -/
def toFixed2 (q : ℚ) : Str :=
  if q < 0 then '-' :: toFixed2Nat (⌊-q * 100 + 1 / 2⌋).toNat
  else toFixed2Nat (⌊q * 100 + 1 / 2⌋).toNat

/-- `BankService.transfer`: same-account check first, then existence of
source and destination, then amount and funds; both balances updated
and persisted together. -/
def transfer (s : BankState) (sourceId destId : Str) (amount : ℚ) :
    BankState × Except Str ℚ :=
  if sourceId = destId then
    (s, .error (str "Conta de origem e destino não podem ser iguais"))
  else
    match lookupAcc s.accounts sourceId with
    | none => (s, .error (str "Conta de origem inexistente"))
    | some b =>
      match lookupAcc s.accounts destId with
      | none => (s, .error (str "Conta de destino inexistente"))
      | some bd =>
        if amount ≤ 0 then
          (s, .error (str "Valor inválido para transferência"))
        else if b < amount then
          (s, .error (str "Saldo insuficiente para transferência"))
        else
          let accounts2 :=
            updateAcc (updateAcc s.accounts sourceId (b - amount)) destId
              (bd + amount)
          ({ accounts := accounts2, saved := accounts2 }, .ok (b - amount))

/-! ## Protocol codec (`protocol/gbtp.ts`)

`GBTPRequest.fromString` splits the raw text on newlines, extracts each
required key from the first line starting with that key (taking the
field between the first and second colons, trimmed), and then runs the
constructor, which performs the cross-field validation.  A JS `throw`
is an `Except.error`; the `TypeError` raised when a matching line has
no colon (`split(":")[1]` is `undefined`) is the `crash` error. -/

/-- The ways request decoding can fail. -/
inductive DecodeErr where
  /-- `Chave <key> não encontrada na requisição.` -/
  | missingKey (key : Str)
  /-- TypeError: `line.split(":")[1]` is `undefined` (no colon). -/
  | crash
  /-- A validation error thrown by the `GBTPRequest` constructor. -/
  | invalid (msg : Str)
  deriving DecidableEq

/-- `GBTPRequest.extractValue`. -/
def extractValue (lines : List Str) (key : Str) : Except DecodeErr Str :=
  match lines.find? (fun l => key.isPrefixOf l) with
  | some l =>
    match (splitCh ':' l)[1]? with
    | some v => .ok (trimChars v)
    | none => .error .crash
  | none => .error (.missingKey key)

/-- A decoded GBTP request.  `operation` is stored upper-cased (the
`Operation` constructor upper-cases); `destination` is `none` when the
constructor received an empty (falsy) string. -/
structure GBTPRequest where
  operation : Str
  account : Str
  destination : Option Str
  value : Str
  deriving DecidableEq

/-- `GBTPRequest.validate()`: returns the message of the first failing
check, or `none` when the request is valid (the source throws; `some`
is the thrown message). -/
def validateReq (r : GBTPRequest) : Option Str :=
  if !operationValidate r.operation then some (str "Operação inválida.")
  else if !idValidate r.account then some (str "Conta principal inválida.")
  else if !valueValidate r.value then some (str "Valor inválido.")
  else if r.operation = str "TRANSFER" then
    if (match r.destination with | none => true | some d => !idValidate d) then
      some (str "Conta de destino obrigatória e inválida para transferência.")
    else if jsLe0 r.value then
      some (str "Valor da transferência deve ser maior que zero.")
    else none
  else if (match r.destination with
           | none => false
           | some d => decide (trimChars d ≠ [])) then
    some (str "Conta de destino só deve ser informada em transferência.")
  else if (r.operation = str "DEPOSIT" ∨ r.operation = str "WITHDRAW") ∧
      jsLe0 r.value then
    some (str "Valor deve ser maior que zero para depósito ou saque.")
  else if r.operation = str "BALANCE" ∧ jsNe0 r.value then
    some (str "Valor deve ser zero para consulta de saldo.")
  else none

/-- The `GBTPRequest` constructor: builds the field objects (upper-casing
the operation, turning a falsy/empty destination into `undefined`) and
runs `validate()` before returning. -/
def mkRequest (operation account destination value : Str) :
    Except Str GBTPRequest :=
  let r : GBTPRequest :=
    { operation := upperChars operation
      account := account
      destination := if destination = [] then none else some destination
      value := value }
  match validateReq r with
  | some e => .error e
  | none => .ok r

/-- `GBTPRequest.fromString` on pre-split lines: extract the four
required keys in source order (upper-casing the operation), propagating
the first extraction failure, then call the constructor. -/
def fromLines (lines : List Str) : Except DecodeErr GBTPRequest :=
  match extractValue lines (str "OPERATION") with
  | .error e => .error e
  | .ok operation =>
    match extractValue lines (str "ACCOUNT_ID") with
    | .error e => .error e
    | .ok account =>
      match extractValue lines (str "TO_ACCOUNT_ID") with
      | .error e => .error e
      | .ok destination =>
        match extractValue lines (str "VALUE") with
        | .error e => .error e
        | .ok value =>
          match mkRequest (upperChars operation) account destination value with
          | .ok r => .ok r
          | .error m => .error (.invalid m)

/-- `GBTPRequest.fromString`. -/
def fromString (request : Str) : Except DecodeErr GBTPRequest :=
  fromLines (splitCh '\n' request)

/-- `GBTPRequest.toString`: the four `KEY:VALUE` lines joined by
newlines, destination emitted as empty when absent. -/
def toStringReq (r : GBTPRequest) : Str :=
  (str "OPERATION:" ++ r.operation) ++
    ('\n' :: ((str "ACCOUNT_ID:" ++ r.account) ++
      ('\n' :: ((str "TO_ACCOUNT_ID:" ++ r.destination.getD []) ++
        ('\n' :: (str "VALUE:" ++ r.value))))))

/-- A GBTP response.  `status` is stored upper-cased. -/
structure GBTPResponse where
  status : Str
  message : Str
  balance : Str
  deriving DecidableEq

/-- The `GBTPResponse` constructor: builds the field objects and runs
`validate()`, which throws on an invalid status, message or balance. -/
def mkResponse (status message balance : Str) : Except Str GBTPResponse :=
  let r : GBTPResponse :=
    { status := upperChars status, message := message, balance := balance }
  if !statusValidate r.status then .error (str "Status inválido.")
  else if !messageValidate r.message then .error (str "Mensagem inválida.")
  else if !balanceValidate r.balance then .error (str "Saldo inválido.")
  else .ok r

/-! ## Dispatcher (`controllers/bank-controller.ts`)

`BankController.process` routes the request to the matching
`BankService` call inside a `try`; on any thrown error the `catch`
block recovers the source account's balance (or `"0"`) and builds an
ERROR response.  A throw escaping `process` itself (only possible when
the ERROR response fails its own validation) is an `Except.error`. -/

/-- Route by operation kind to the ledger call, pairing the result with
the fixed per-operation success message; an unrecognized kind is the
`Operação desconhecida` failure. -/
def routeOp (s : BankState) (opType acctId destId : Str) (valueNum : ℚ) :
    BankState × Except Str (ℚ × Str) :=
  if opType = str "BALANCE" then
    let p := getBalance s acctId
    (p.1, p.2.map fun b => (b, str "Saldo consultado com sucesso"))
  else if opType = str "DEPOSIT" then
    let p := deposit s acctId valueNum
    (p.1, p.2.map fun b => (b, str "Depósito realizado com sucesso"))
  else if opType = str "WITHDRAW" then
    let p := withdraw s acctId valueNum
    (p.1, p.2.map fun b => (b, str "Saque efetuado"))
  else if opType = str "TRANSFER" then
    let p := transfer s acctId destId valueNum
    (p.1, p.2.map fun b => (b, str "Transferência concluída"))
  else (s, .error (str "Operação desconhecida"))

/-- The `catch` block of `process`: recover the current balance of the
source account via `getBalance` (keeping `"0"` when that also fails)
and build the ERROR response. -/
def catchResponse (s : BankState) (acctId e : Str) :
    BankState × Except Str GBTPResponse :=
  let balanceStr :=
    match (getBalance s acctId).2 with
    | .ok b => toFixed2 b
    | .error _ => str "0"
  match mkResponse (str "ERROR") e balanceStr with
  | .ok r => (s, .ok r)
  | .error e2 => (s, .error e2)

/-- `BankController.process` on the four extracted request fields
(`opType`, `acctId`, `destId`, `valueNum = Number(value)`). -/
def process (s : BankState) (opType acctId destId : Str) (valueNum : ℚ) :
    BankState × Except Str GBTPResponse :=
  match routeOp s opType acctId destId valueNum with
  | (s2, .ok (nb, msg)) =>
    match mkResponse (str "OK") msg (toFixed2 nb) with
    | .ok r => (s2, .ok r)
    | .error e2 => catchResponse s2 acctId e2
  | (s2, .error e) => catchResponse s2 acctId e

/-! ## Declarative validation rules (spec §4.2)

A second reading of the validation layer, written from the spec's
words: seven rules in a fixed order, first failing rule wins, TRANSFER
stopping after rule 4.  `validateRules` is compared with the source's
`validateReq` in claim C4. -/

/-- Rule `i` (1–7) of spec §4.2 fails on `r` (inapplicable rules do not
fail; rules 5–7 are inapplicable to TRANSFER by their conditions). -/
def ruleFails (i : ℕ) (r : GBTPRequest) : Bool :=
  match i with
  | 1 => !operationValidate r.operation
  | 2 => !idValidate r.account
  | 3 => !valueValidate r.value
  | 4 => decide (r.operation = str "TRANSFER") &&
      ((match r.destination with | none => true | some d => !idValidate d) ||
        jsLe0 r.value)
  | 5 => !decide (r.operation = str "TRANSFER") &&
      (match r.destination with
       | none => false
       | some d => decide (trimChars d ≠ []))
  | 6 => (decide (r.operation = str "DEPOSIT") ||
      decide (r.operation = str "WITHDRAW")) && jsLe0 r.value
  | 7 => decide (r.operation = str "BALANCE") && jsNe0 r.value
  | _ => false

/-- The error message reported for a failing rule. -/
def ruleMsg (i : ℕ) (r : GBTPRequest) : Str :=
  match i with
  | 1 => str "Operação inválida."
  | 2 => str "Conta principal inválida."
  | 3 => str "Valor inválido."
  | 4 =>
    match r.destination with
    | none => str "Conta de destino obrigatória e inválida para transferência."
    | some d =>
      if idValidate d then str "Valor da transferência deve ser maior que zero."
      else str "Conta de destino obrigatória e inválida para transferência."
  | 5 => str "Conta de destino só deve ser informada em transferência."
  | 6 => str "Valor deve ser maior que zero para depósito ou saque."
  | 7 => str "Valor deve ser zero para consulta de saldo."
  | _ => []

/-- The first rule of spec §4.2 (in the fixed order 1–7) failing on `r`. -/
def firstFailingRule (r : GBTPRequest) : Option ℕ :=
  [1, 2, 3, 4, 5, 6, 7].find? fun i => ruleFails i r

/-! ## Lemmas about the account map -/

theorem lookupAcc_mem {m : List (Str × ℚ)} {k : Str} {b : ℚ}
    (h : lookupAcc m k = some b) : (k, b) ∈ m := by
  unfold lookupAcc at h
  cases hf : m.find? (fun p => decide (p.1 = k)) with
  | none => rw [hf] at h; simp at h
  | some p =>
    rw [hf] at h
    obtain ⟨k0, v0⟩ := p
    have hp := @List.find?_some _ (fun q : Str × ℚ => decide (q.1 = k)) _ _ hf
    have hm := List.mem_of_find?_eq_some hf
    have hk : k0 = k := by simpa using hp
    have hv : v0 = b := by simpa using h
    rw [hk, hv] at hm
    exact hm

theorem lookupAcc_cons (p : Str × ℚ) (t : List (Str × ℚ)) (k : Str) :
    lookupAcc (p :: t) k = if p.1 = k then some p.2 else lookupAcc t k := by
  by_cases h : p.1 = k
  · simp [lookupAcc, List.find?_cons_of_pos, h]
  · simp [lookupAcc, List.find?_cons_of_neg, h]

theorem lookupAcc_update_self (m : List (Str × ℚ)) (k : Str) (v : ℚ) :
    lookupAcc (updateAcc m k v) k = (lookupAcc m k).map fun _ => v := by
  induction m with
  | nil => simp [lookupAcc, updateAcc]
  | cons p t ih =>
    by_cases h : p.1 = k
    · simp [updateAcc, lookupAcc_cons, if_pos h, h]
    · simp only [updateAcc, List.map_cons, if_neg h] at ih ⊢
      rw [lookupAcc_cons, lookupAcc_cons, if_neg h, if_neg h]
      exact ih

theorem lookupAcc_update_ne (m : List (Str × ℚ)) (k k' : Str) (v : ℚ)
    (h : k' ≠ k) :
    lookupAcc (updateAcc m k v) k' = lookupAcc m k' := by
  induction m with
  | nil => simp [lookupAcc, updateAcc]
  | cons p t ih =>
    by_cases hp : p.1 = k
    · have hp' : ¬ p.1 = k' := by rw [hp]; exact fun hkk => h hkk.symm
      simp only [updateAcc, List.map_cons, if_pos hp] at ih ⊢
      rw [lookupAcc_cons, lookupAcc_cons, if_neg hp']
      have : ¬ (p.1, v).1 = k' := hp'
      rw [if_neg this]
      exact ih
    · simp only [updateAcc, List.map_cons, if_neg hp] at ih ⊢
      rw [lookupAcc_cons, lookupAcc_cons]
      by_cases hq : p.1 = k'
      · rw [if_pos hq, if_pos hq]
      · rw [if_neg hq, if_neg hq]
        exact ih

/-- Balances in an account map are all non-negative (the ledger
invariant, stated as a decidable predicate). -/
def nonnegBal (m : List (Str × ℚ)) : Bool := m.all fun p => decide (0 ≤ p.2)

theorem nonnegBal_lookup {m : List (Str × ℚ)} {k : Str} {b : ℚ}
    (hm : nonnegBal m = true) (h : lookupAcc m k = some b) : 0 ≤ b := by
  have := lookupAcc_mem h
  simp [nonnegBal, List.all_eq_true] at hm
  exact hm k b this

theorem nonnegBal_update {m : List (Str × ℚ)} {k : Str} {v : ℚ}
    (hm : nonnegBal m = true) (hv : 0 ≤ v) :
    nonnegBal (updateAcc m k v) = true := by
  simp only [nonnegBal, updateAcc, List.all_eq_true] at hm ⊢
  intro p hp
  obtain ⟨q, hq, hpq⟩ := List.mem_map.mp hp
  by_cases h : q.1 = k
  · rw [if_pos h] at hpq
    subst hpq
    simpa using hv
  · rw [if_neg h] at hpq
    subst hpq
    exact hm q hq

/-! ## Shape lemmas for the ledger operations -/

theorem deposit_eq {s : BankState} {a : Str} {amt b : ℚ}
    (hl : lookupAcc s.accounts a = some b) (hamt : ¬ amt ≤ 0) :
    deposit s a amt =
      ({ accounts := updateAcc s.accounts a (b + amt),
         saved := updateAcc s.accounts a (b + amt) }, .ok (b + amt)) := by
  simp [deposit, hl, hamt]

theorem withdraw_eq {s : BankState} {a : Str} {amt b : ℚ}
    (hl : lookupAcc s.accounts a = some b) (hamt : ¬ amt ≤ 0)
    (hfund : ¬ b < amt) :
    withdraw s a amt =
      ({ accounts := updateAcc s.accounts a (b - amt),
         saved := updateAcc s.accounts a (b - amt) }, .ok (b - amt)) := by
  simp [withdraw, hl, hamt, hfund]

theorem transfer_eq {s : BankState} {src dst : Str} {amt b bd : ℚ}
    (hsd : src ≠ dst) (hls : lookupAcc s.accounts src = some b)
    (hld : lookupAcc s.accounts dst = some bd) (hamt : ¬ amt ≤ 0)
    (hfund : ¬ b < amt) :
    transfer s src dst amt =
      ({ accounts := updateAcc (updateAcc s.accounts src (b - amt)) dst
           (bd + amt),
         saved := updateAcc (updateAcc s.accounts src (b - amt)) dst
           (bd + amt) }, .ok (b - amt)) := by
  simp [transfer, hsd, hls, hld, hamt, hfund]

theorem deposit_error_state {s : BankState} {a : Str} {amt : ℚ} (e : Str)
    (h : (deposit s a amt).2 = .error e) : (deposit s a amt).1 = s := by
  unfold deposit at h ⊢
  cases hl : lookupAcc s.accounts a with
  | none => simp [hl]
  | some b =>
    by_cases hle : amt ≤ 0
    · simp [hl, hle]
    · simp [hl, hle] at h

theorem withdraw_error_state {s : BankState} {a : Str} {amt : ℚ} (e : Str)
    (h : (withdraw s a amt).2 = .error e) : (withdraw s a amt).1 = s := by
  unfold withdraw at h ⊢
  cases hl : lookupAcc s.accounts a with
  | none => simp [hl]
  | some b =>
    by_cases hle : amt ≤ 0
    · simp [hl, hle]
    · by_cases hlt : b < amt
      · simp [hl, hle, hlt]
      · simp [hl, hle, hlt] at h

theorem transfer_error_state {s : BankState} {src dst : Str} {amt : ℚ}
    (e : Str) (h : (transfer s src dst amt).2 = .error e) :
    (transfer s src dst amt).1 = s := by
  unfold transfer at h ⊢
  by_cases hsd : src = dst
  · simp [hsd]
  · cases hls : lookupAcc s.accounts src with
    | none => simp [hsd, hls]
    | some b =>
      cases hld : lookupAcc s.accounts dst with
      | none => simp [hsd, hls, hld]
      | some bd =>
        by_cases hle : amt ≤ 0
        · simp [hsd, hls, hld, hle]
        · by_cases hlt : b < amt
          · simp [hsd, hls, hld, hle, hlt]
          · simp [hsd, hls, hld, hle, hlt] at h

theorem transfer_ok_shape {s : BankState} {src dst : Str} {amt nb : ℚ}
    (h : (transfer s src dst amt).2 = .ok nb) :
    ∃ b bd, src ≠ dst ∧ lookupAcc s.accounts src = some b ∧
      lookupAcc s.accounts dst = some bd ∧ ¬ amt ≤ 0 ∧ ¬ b < amt ∧
      nb = b - amt := by
  unfold transfer at h
  by_cases hsd : src = dst
  · simp [hsd] at h
  · cases hls : lookupAcc s.accounts src with
    | none => simp [hsd, hls] at h
    | some b =>
      cases hld : lookupAcc s.accounts dst with
      | none => simp [hsd, hls, hld] at h
      | some bd =>
        by_cases hle : amt ≤ 0
        · simp [hsd, hls, hld, hle] at h
        · by_cases hlt : b < amt
          · simp [hsd, hls, hld, hle, hlt] at h
          · simp [hsd, hls, hld, hle, hlt] at h
            exact ⟨b, bd, hsd, rfl, rfl, hle, hlt, h.symm⟩

/-! ## Claims about the ledger engine -/

/-- C6: for every account identifier `a` (existing or not), every amount
and every ledger state, `transfer a a amt` fails with the same-account
error; the equality check precedes the existence, amount and funds
checks, so the state is returned unchanged whatever `a`'s balance or
existence. -/
theorem c6_transfer_same_account (s : BankState) (a : Str) (amt : ℚ) :
    transfer s a a amt =
      (s, .error (str "Conta de origem e destino não podem ser iguais")) := by
  simp [transfer]

/-- C2: starting from a ledger in which every balance is non-negative,
each of the four operations — succeed or fail — leaves every balance
non-negative. -/
theorem c2_operations_preserve_nonneg (s : BankState) (a d : Str) (amt : ℚ)
    (h : nonnegBal s.accounts = true) :
    nonnegBal (getBalance s a).1.accounts = true ∧
    nonnegBal (deposit s a amt).1.accounts = true ∧
    nonnegBal (withdraw s a amt).1.accounts = true ∧
    nonnegBal (transfer s a d amt).1.accounts = true := by
  refine ⟨?_, ?_, ?_, ?_⟩
  · cases hl : lookupAcc s.accounts a <;> simp [getBalance, hl, h]
  · cases hl : lookupAcc s.accounts a with
    | none => simp [deposit, hl, h]
    | some b =>
      by_cases hle : amt ≤ 0
      · simp [deposit, hl, hle, h]
      · simp only [deposit, hl, if_neg hle]
        have hb := nonnegBal_lookup h hl
        have hamt : (0 : ℚ) < amt := not_le.mp hle
        exact nonnegBal_update h (add_nonneg hb hamt.le)
  · cases hl : lookupAcc s.accounts a with
    | none => simp [withdraw, hl, h]
    | some b =>
      by_cases hle : amt ≤ 0
      · simp [withdraw, hl, hle, h]
      · by_cases hlt : b < amt
        · simp [withdraw, hl, hle, hlt, h]
        · simp only [withdraw, hl, if_neg hle, if_neg hlt]
          exact nonnegBal_update h (sub_nonneg.mpr (not_lt.mp hlt))
  · by_cases hsd : a = d
    · simp [transfer, hsd, h]
    · cases hls : lookupAcc s.accounts a with
      | none => simp [transfer, hsd, hls, h]
      | some b =>
        cases hld : lookupAcc s.accounts d with
        | none => simp [transfer, hsd, hls, hld, h]
        | some bd =>
          by_cases hle : amt ≤ 0
          · simp [transfer, hsd, hls, hld, hle, h]
          · by_cases hlt : b < amt
            · simp [transfer, hsd, hls, hld, hle, hlt, h]
            · simp only [transfer, hsd, hls, hld, if_neg hle, if_neg hlt,
                if_neg (fun hh : a = d => hsd hh)]
              have hbd := nonnegBal_lookup h hld
              have hamt : (0 : ℚ) < amt := not_le.mp hle
              exact nonnegBal_update
                (nonnegBal_update h (sub_nonneg.mpr (not_lt.mp hlt)))
                (add_nonneg hbd hamt.le)

/-- C2 witness: the invariant holds for the default ledger and is
preserved by a concrete withdrawal. -/
theorem c2_witness :
    nonnegBal defaultState.accounts = true ∧
    nonnegBal (withdraw defaultState (str "1001") 200).1.accounts = true :=
  ⟨by decide,
   (c2_operations_preserve_nonneg defaultState (str "1001") (str "1002") 200
     (by decide)).2.2.1⟩

/-- C3: transfer is atomic — on success the source balance decreases by
exactly `amt`, the destination increases by exactly `amt`, every other
account is untouched and the snapshot equals the new map; on failure
(and on deposit/withdraw failure) the state, snapshot included, is
exactly the pre-call state. -/
theorem c3_atomicity (s : BankState) (src dst : Str) (amt : ℚ) :
    (∀ e, (transfer s src dst amt).2 = .error e →
      (transfer s src dst amt).1 = s) ∧
    (∀ nb, (transfer s src dst amt).2 = .ok nb →
      ∃ b bd, lookupAcc s.accounts src = some b ∧
        lookupAcc s.accounts dst = some bd ∧
        nb = b - amt ∧
        lookupAcc (transfer s src dst amt).1.accounts src = some (b - amt) ∧
        lookupAcc (transfer s src dst amt).1.accounts dst = some (bd + amt) ∧
        (∀ o, o ≠ src → o ≠ dst →
          lookupAcc (transfer s src dst amt).1.accounts o =
            lookupAcc s.accounts o) ∧
        (transfer s src dst amt).1.saved =
          (transfer s src dst amt).1.accounts) ∧
    (∀ e, (deposit s src amt).2 = .error e → (deposit s src amt).1 = s) ∧
    (∀ e, (withdraw s src amt).2 = .error e → (withdraw s src amt).1 = s) := by
  refine ⟨fun e he => transfer_error_state e he, ?_,
    fun e he => deposit_error_state e he,
    fun e he => withdraw_error_state e he⟩
  intro nb hnb
  obtain ⟨b, bd, hsd, hls, hld, hle, hlt, hnbv⟩ := transfer_ok_shape hnb
  have heq := transfer_eq hsd hls hld hle hlt
  have hds : dst ≠ src := fun hh => hsd hh.symm
  refine ⟨b, bd, hls, hld, hnbv, ?_, ?_, ?_, ?_⟩
  · rw [heq]
    show lookupAcc
      (updateAcc (updateAcc s.accounts src (b - amt)) dst (bd + amt)) src =
        some (b - amt)
    rw [lookupAcc_update_ne _ _ _ _ hsd, lookupAcc_update_self, hls]
    rfl
  · rw [heq]
    show lookupAcc
      (updateAcc (updateAcc s.accounts src (b - amt)) dst (bd + amt)) dst =
        some (bd + amt)
    rw [lookupAcc_update_self, lookupAcc_update_ne _ _ _ _ hds, hld]
    rfl
  · intro o ho1 ho2
    rw [heq]
    show lookupAcc
      (updateAcc (updateAcc s.accounts src (b - amt)) dst (bd + amt)) o =
        lookupAcc s.accounts o
    rw [lookupAcc_update_ne _ _ _ _ ho2, lookupAcc_update_ne _ _ _ _ ho1]
  · rw [heq]

/-- C3 witness: a same-account transfer fails and leaves the default
state untouched. -/
theorem c3_witness :
    (transfer defaultState (str "1001") (str "1001") 50).1 = defaultState :=
  (c3_atomicity defaultState (str "1001") (str "1001") 50).1
    (str "Conta de origem e destino não podem ser iguais") (by rfl)

/-- C7: for an existing account with a non-negative balance (the ledger
invariant) and a positive amount, deposit followed by withdraw of the
same amount succeeds and returns the account to exactly its original
balance. -/
theorem c7_deposit_withdraw_roundtrip (s : BankState) (a : Str) (x b : ℚ)
    (hb : lookupAcc s.accounts a = some b) (hb0 : 0 ≤ b) (hx : 0 < x) :
    (deposit s a x).2 = .ok (b + x) ∧
    (withdraw (deposit s a x).1 a x).2 = .ok b ∧
    lookupAcc (withdraw (deposit s a x).1 a x).1.accounts a = some b := by
  have hxle : ¬ x ≤ 0 := not_le.mpr hx
  have hdep := deposit_eq hb hxle
  have hl2 : lookupAcc (deposit s a x).1.accounts a = some (b + x) := by
    rw [hdep]
    show lookupAcc (updateAcc s.accounts a (b + x)) a = some (b + x)
    rw [lookupAcc_update_self, hb]
    rfl
  have hnlt : ¬ b + x < x := not_lt.mpr (by linarith)
  have hwd := withdraw_eq hl2 hxle hnlt
  have hbx : b + x - x = b := by ring
  refine ⟨by rw [hdep], ?_, ?_⟩
  · rw [hwd, hbx]
  · rw [hwd]
    show lookupAcc
      (updateAcc (deposit s a x).1.accounts a (b + x - x)) a = some b
    rw [lookupAcc_update_self, hl2]
    simp [hbx]

/-- C7 witness: deposit 100 then withdraw 100 on account 1001 (balance
500) returns the balance to 500. -/
theorem c7_witness :
    lookupAcc defaultState.accounts (str "1001") = some 500 ∧
    (withdraw (deposit defaultState (str "1001") 100).1 (str "1001")
      100).2 = .ok 500 :=
  ⟨by decide,
   (c7_deposit_withdraw_roundtrip defaultState (str "1001") 100 500
     (by decide) (by decide) (by decide)).2.1⟩

/-! ## Lemmas: digits, trimming and parsing of formatted balances -/

theorem digitChar_isDigit : ∀ k, k < 10 → (Nat.digitChar k).isDigit = true := by
  decide

theorem digitChar_not_ws : ∀ k, k < 10 → wsB (Nat.digitChar k) = false := by
  decide

theorem digitChar_ne_sign :
    ∀ k, k < 10 → Nat.digitChar k ≠ '-' ∧ Nat.digitChar k ≠ '+' := by decide

theorem dropWhile_eq_self_of_none {p : Char → Bool} {l : Str}
    (h : ∀ c ∈ l, p c = false) : l.dropWhile p = l := by
  cases l with
  | nil => rfl
  | cons x xs => simp [List.dropWhile_cons, h x (List.mem_cons_self x xs)]

theorem trimChars_eq_self {l : Str} (h : ∀ c ∈ l, wsB c = false) :
    trimChars l = l := by
  unfold trimChars
  rw [dropWhile_eq_self_of_none h,
    dropWhile_eq_self_of_none fun c hc => h c (List.mem_reverse.mp hc),
    List.reverse_reverse]

theorem takeWhile_append_stop {p : Char → Bool} {l : Str} (y : Char) (r : Str)
    (hl : ∀ c ∈ l, p c = true) (hy : p y = false) :
    (l ++ y :: r).takeWhile p = l ∧ (l ++ y :: r).dropWhile p = y :: r := by
  induction l with
  | nil => simp [List.takeWhile_cons, List.dropWhile_cons, hy]
  | cons x xs ih =>
    have hx : p x = true := hl x (List.mem_cons_self x xs)
    have hih := ih fun c hc => hl c (List.mem_cons_of_mem x hc)
    simp [List.takeWhile_cons, List.dropWhile_cons, hx, hih.1, hih.2]

theorem takeWhile_all {p : Char → Bool} {l : Str}
    (h : ∀ c ∈ l, p c = true) :
    l.takeWhile p = l ∧ l.dropWhile p = [] := by
  induction l with
  | nil => simp
  | cons x xs ih =>
    have hx : p x = true := h x (List.mem_cons_self x xs)
    have hih := ih fun c hc => h c (List.mem_cons_of_mem x hc)
    simp [List.takeWhile_cons, List.dropWhile_cons, hx, hih.1, hih.2]

theorem natToCharsAux_mem :
    ∀ fuel n c, c ∈ natToCharsAux fuel n → ∃ k, k < 10 ∧ c = Nat.digitChar k := by
  intro fuel
  induction fuel with
  | zero => intro n c hc; simp [natToCharsAux] at hc
  | succ f ih =>
    intro n c hc
    unfold natToCharsAux at hc
    by_cases hn : n < 10
    · rw [if_pos hn] at hc
      simp at hc
      exact ⟨n, hn, hc⟩
    · rw [if_neg hn] at hc
      rcases List.mem_append.mp hc with h1 | h2
      · exact ih _ c h1
      · simp at h2
        exact ⟨n % 10, Nat.mod_lt _ (by norm_num), h2⟩

theorem natToChars_mem {n : ℕ} {c : Char} (hc : c ∈ natToChars n) :
    ∃ k, k < 10 ∧ c = Nat.digitChar k :=
  natToCharsAux_mem _ _ _ hc

theorem natToChars_ne_nil (n : ℕ) : natToChars n ≠ [] := by
  unfold natToChars natToCharsAux
  by_cases hn : n < 10 <;> simp [hn]

theorem natToChars_all_digit (n : ℕ) :
    ∀ c ∈ natToChars n, c.isDigit = true := by
  intro c hc
  obtain ⟨k, hk, rfl⟩ := natToChars_mem hc
  exact digitChar_isDigit k hk

theorem twoDigitChars_all_digit (k : ℕ) :
    ∀ c ∈ twoDigitChars k, c.isDigit = true := by
  intro c hc
  unfold twoDigitChars at hc
  by_cases h : k < 10
  · rw [if_pos h] at hc
    rcases List.mem_cons.mp hc with rfl | hc2
    · decide
    · exact natToChars_all_digit _ c hc2
  · rw [if_neg h] at hc
    exact natToChars_all_digit _ c hc

theorem toFixed2Nat_not_ws (n : ℕ) : ∀ c ∈ toFixed2Nat n, wsB c = false := by
  intro c hc
  unfold toFixed2Nat at hc
  rcases List.mem_append.mp hc with h1 | h2
  · obtain ⟨k, hk, rfl⟩ := natToChars_mem h1
    exact digitChar_not_ws k hk
  · rcases List.mem_cons.mp h2 with rfl | h3
    · decide
    · have := twoDigitChars_all_digit (n % 100) c h3
      unfold twoDigitChars at h3
      by_cases hlt : n % 100 < 10
      · rw [if_pos hlt] at h3
        rcases List.mem_cons.mp h3 with rfl | h4
        · decide
        · obtain ⟨k, hk, rfl⟩ := natToChars_mem h4
          exact digitChar_not_ws k hk
      · rw [if_neg hlt] at h3
        obtain ⟨k, hk, rfl⟩ := natToChars_mem h3
        exact digitChar_not_ws k hk

theorem parseDec_digits_point_digits {ip f : Str} (hip : ip ≠ [])
    (hipd : ∀ c ∈ ip, c.isDigit = true) (hf : ∀ c ∈ f, c.isDigit = true) :
    ∃ q, parseDec (ip ++ '.' :: f) = some q ∧ 0 ≤ q := by
  have hdot : Char.isDigit '.' = false := by decide
  have h1 := takeWhile_append_stop '.' f hipd hdot
  have h2 := takeWhile_all hf
  refine ⟨((digitsVal ip : ℚ) + (digitsVal f : ℚ) / 10 ^ f.length) *
    (10 : ℚ) ^ (0 : ℤ), ?_, ?_⟩
  · unfold parseDec
    rw [h1.1, h1.2]
    simp only [h2.1, h2.2]
    rw [if_neg (by simp [hip])]
    rfl
  · positivity

theorem jsNumber_toFixed2Nat_nonneg (n : ℕ) :
    ∃ r, jsNumber (toFixed2Nat n) = some r ∧ 0 ≤ r := by
  have hne : toFixed2Nat n ≠ [] := by
    unfold toFixed2Nat
    cases hh : natToChars (n / 100) with
    | nil => exact absurd hh (natToChars_ne_nil _)
    | cons c cs => simp
  obtain ⟨q, hq, hq0⟩ := parseDec_digits_point_digits (natToChars_ne_nil (n / 100))
    (natToChars_all_digit (n / 100)) (twoDigitChars_all_digit (n % 100))
  refine ⟨q, ?_, hq0⟩
  unfold jsNumber
  rw [trimChars_eq_self (toFixed2Nat_not_ws n)]
  rw [if_neg hne]
  cases hh : natToChars (n / 100) with
  | nil => exact absurd hh (natToChars_ne_nil _)
  | cons c cs =>
    have hcd : ∃ k, k < 10 ∧ c = Nat.digitChar k :=
      natToChars_mem (by rw [hh]; exact List.mem_cons_self c cs)
    obtain ⟨k, hk, rfl⟩ := hcd
    have hsgn := digitChar_ne_sign k hk
    have hshape : toFixed2Nat n =
        Nat.digitChar k :: (cs ++ '.' :: twoDigitChars (n % 100)) := by
      unfold toFixed2Nat
      rw [hh]
      rfl
    rw [hshape]
    simp only [if_neg hsgn.1, if_neg hsgn.2]
    rw [← List.cons_append, ← hh]
    exact hq

theorem balanceValidate_toFixed2 (q : ℚ) (hq : 0 ≤ q) :
    balanceValidate (toFixed2 q) = true := by
  have hq' : ¬ q < 0 := not_lt.mpr hq
  have hfix : toFixed2 q = toFixed2Nat (⌊q * 100 + 1 / 2⌋).toNat := by
    unfold toFixed2
    rw [if_neg hq']
  obtain ⟨r, hr, hr0⟩ := jsNumber_toFixed2Nat_nonneg (⌊q * 100 + 1 / 2⌋).toNat
  have hne : toFixed2Nat (⌊q * 100 + 1 / 2⌋).toNat ≠ [] := by
    unfold toFixed2Nat
    cases hh : natToChars ((⌊q * 100 + 1 / 2⌋).toNat / 100) with
    | nil => exact absurd hh (natToChars_ne_nil _)
    | cons c cs => simp
  rw [hfix]
  unfold balanceValidate
  rw [trimChars_eq_self (toFixed2Nat_not_ws _)]
  rw [if_neg hne, hr]
  simp [hr0]

/-! ## Lemmas about the dispatcher -/

theorem except_map_error {α β γ : Type} {x : Except α β} {f : β → γ} {e : α}
    (h : x.map f = .error e) : x = .error e := by
  cases x with
  | error e0 => simpa [Except.map] using h
  | ok b => simp [Except.map] at h

theorem getBalance_fst (s : BankState) (a : Str) : (getBalance s a).1 = s := by
  unfold getBalance
  cases lookupAcc s.accounts a <;> rfl

theorem getBalance_error_msg {s : BankState} {a e : Str}
    (h : (getBalance s a).2 = .error e) :
    e = str "Conta de origem inexistente" := by
  unfold getBalance at h
  cases hl : lookupAcc s.accounts a with
  | none => simp [hl] at h; exact h.symm
  | some b => simp [hl] at h

theorem deposit_error_msg {s : BankState} {a : Str} {amt : ℚ} {e : Str}
    (h : (deposit s a amt).2 = .error e) :
    e = str "Conta de origem inexistente" ∨
    e = str "Valor inválido para depósito" := by
  unfold deposit at h
  cases hl : lookupAcc s.accounts a with
  | none => simp [hl] at h; exact Or.inl h.symm
  | some b =>
    by_cases hle : amt ≤ 0
    · simp [hl, hle] at h
      exact Or.inr h.symm
    · simp [hl, hle] at h

theorem withdraw_error_msg {s : BankState} {a : Str} {amt : ℚ} {e : Str}
    (h : (withdraw s a amt).2 = .error e) :
    e = str "Conta de origem inexistente" ∨
    e = str "Valor inválido para saque" ∨ e = str "Saldo insuficiente" := by
  unfold withdraw at h
  cases hl : lookupAcc s.accounts a with
  | none => simp [hl] at h; exact Or.inl h.symm
  | some b =>
    by_cases hle : amt ≤ 0
    · simp [hl, hle] at h
      exact Or.inr (Or.inl h.symm)
    · by_cases hlt : b < amt
      · simp [hl, hle, hlt] at h
        exact Or.inr (Or.inr h.symm)
      · simp [hl, hle, hlt] at h

theorem transfer_error_msg {s : BankState} {src dst : Str} {amt : ℚ} {e : Str}
    (h : (transfer s src dst amt).2 = .error e) :
    e = str "Conta de origem e destino não podem ser iguais" ∨
    e = str "Conta de origem inexistente" ∨
    e = str "Conta de destino inexistente" ∨
    e = str "Valor inválido para transferência" ∨
    e = str "Saldo insuficiente para transferência" := by
  unfold transfer at h
  by_cases hsd : src = dst
  · simp [hsd] at h
    exact Or.inl h.symm
  · cases hls : lookupAcc s.accounts src with
    | none => simp [hsd, hls] at h; exact Or.inr (Or.inl h.symm)
    | some b =>
      cases hld : lookupAcc s.accounts dst with
      | none => simp [hsd, hls, hld] at h; exact Or.inr (Or.inr (Or.inl h.symm))
      | some bd =>
        by_cases hle : amt ≤ 0
        · simp [hsd, hls, hld, hle] at h
          exact Or.inr (Or.inr (Or.inr (Or.inl h.symm)))
        · by_cases hlt : b < amt
          · simp [hsd, hls, hld, hle, hlt] at h
            exact Or.inr (Or.inr (Or.inr (Or.inr h.symm)))
          · simp [hsd, hls, hld, hle, hlt] at h

theorem routeOp_balance (s : BankState) (a d : Str) (q : ℚ) :
    routeOp s (str "BALANCE") a d q =
      ((getBalance s a).1,
        (getBalance s a).2.map fun b =>
          (b, str "Saldo consultado com sucesso")) := by
  unfold routeOp
  rw [if_pos rfl]

theorem routeOp_deposit (s : BankState) (a d : Str) (q : ℚ) :
    routeOp s (str "DEPOSIT") a d q =
      ((deposit s a q).1,
        (deposit s a q).2.map fun b =>
          (b, str "Depósito realizado com sucesso")) := by
  unfold routeOp
  rw [if_neg (by decide), if_pos rfl]

theorem routeOp_withdraw (s : BankState) (a d : Str) (q : ℚ) :
    routeOp s (str "WITHDRAW") a d q =
      ((withdraw s a q).1,
        (withdraw s a q).2.map fun b => (b, str "Saque efetuado")) := by
  unfold routeOp
  rw [if_neg (by decide), if_neg (by decide), if_pos rfl]

theorem routeOp_transfer (s : BankState) (a d : Str) (q : ℚ) :
    routeOp s (str "TRANSFER") a d q =
      ((transfer s a d q).1,
        (transfer s a d q).2.map fun b =>
          (b, str "Transferência concluída")) := by
  unfold routeOp
  rw [if_neg (by decide), if_neg (by decide), if_neg (by decide), if_pos rfl]

/-- On any routed failure the service state is unchanged and the
failure's message is non-empty (so the ERROR response validates). -/
theorem routeOp_error_facts {s : BankState} {opType acctId destId : Str}
    {valueNum : ℚ} {e : Str}
    (h : (routeOp s opType acctId destId valueNum).2 = .error e) :
    (routeOp s opType acctId destId valueNum).1 = s ∧
    messageValidate e = true := by
  unfold routeOp at h ⊢
  by_cases h1 : opType = str "BALANCE"
  · rw [if_pos h1] at h ⊢
    have h2 : (getBalance s acctId).2 = .error e := except_map_error h
    refine ⟨getBalance_fst s acctId, ?_⟩
    rw [getBalance_error_msg h2]
    decide
  · rw [if_neg h1] at h ⊢
    by_cases h2 : opType = str "DEPOSIT"
    · rw [if_pos h2] at h ⊢
      have h3 : (deposit s acctId valueNum).2 = .error e := except_map_error h
      refine ⟨deposit_error_state e h3, ?_⟩
      rcases deposit_error_msg h3 with rfl | rfl <;> decide
    · rw [if_neg h2] at h ⊢
      by_cases h3 : opType = str "WITHDRAW"
      · rw [if_pos h3] at h ⊢
        have h4 : (withdraw s acctId valueNum).2 = .error e := except_map_error h
        refine ⟨withdraw_error_state e h4, ?_⟩
        rcases withdraw_error_msg h4 with rfl | rfl | rfl <;> decide
      · rw [if_neg h3] at h ⊢
        by_cases h4 : opType = str "TRANSFER"
        · rw [if_pos h4] at h ⊢
          have h5 : (transfer s acctId destId valueNum).2 = .error e :=
            except_map_error h
          refine ⟨transfer_error_state e h5, ?_⟩
          rcases transfer_error_msg h5 with rfl | rfl | rfl | rfl | rfl <;> decide
        · rw [if_neg h4] at h ⊢
          simp at h
          refine ⟨rfl, ?_⟩
          rw [← h]
          decide

/-- A successfully routed operation with a valid message and a
non-negative resulting balance produces the OK response. -/
theorem process_ok_of_route {s s2 : BankState} {opType acctId destId : Str}
    {valueNum nb : ℚ} {msg : Str}
    (hro : routeOp s opType acctId destId valueNum = (s2, .ok (nb, msg)))
    (hmsg : messageValidate msg = true) (hnb : 0 ≤ nb) :
    process s opType acctId destId valueNum =
      (s2, .ok { status := str "OK", message := msg,
                 balance := toFixed2 nb }) := by
  unfold process
  rw [hro]
  have hs : statusValidate (str "OK") = true := by decide
  have hup : upperChars (str "OK") = str "OK" := by decide
  have hbv := balanceValidate_toFixed2 nb hnb
  simp [mkResponse, hs, hmsg, hbv, hup]

/-- C5: `process` never throws on a routed-ledger failure — it returns a
well-formed ERROR response carrying the failure's message, with the
state unchanged and the balance recovered via `getBalance` (formatted
to two decimals) or the literal `"0"` when the source account cannot be
resolved.  The hypothesis that resolvable balances are non-negative is
the ledger invariant (claim C2). -/
theorem c5_process_error_path (s : BankState) (opType acctId destId : Str)
    (valueNum : ℚ) (e : Str)
    (herr : (routeOp s opType acctId destId valueNum).2 = .error e)
    (hinv : ∀ b, lookupAcc s.accounts acctId = some b → 0 ≤ b) :
    process s opType acctId destId valueNum =
      (s, .ok { status := str "ERROR", message := e,
                balance :=
                  match lookupAcc s.accounts acctId with
                  | some b => toFixed2 b
                  | none => str "0" }) := by
  obtain ⟨hst, hmsg⟩ := routeOp_error_facts herr
  have hro : routeOp s opType acctId destId valueNum = (s, .error e) :=
    Prod.ext hst herr
  unfold process
  rw [hro]
  have hs : statusValidate (str "ERROR") = true := by decide
  have hup : upperChars (str "ERROR") = str "ERROR" := by decide
  cases hb : lookupAcc s.accounts acctId with
  | some b =>
    have hbv := balanceValidate_toFixed2 b (hinv b hb)
    simp [catchResponse, getBalance, hb, mkResponse, hs, hmsg, hbv, hup]
  | none =>
    have hbv : balanceValidate (str "0") = true := by with_unfolding_all decide
    simp [catchResponse, getBalance, hb, mkResponse, hs, hmsg, hbv, hup]

/-- C5 witness: spec scenario 5 — a transfer from the unknown account
9999 yields `STATUS:ERROR`, the source-missing message and balance `0`,
with the ledger untouched. -/
theorem c5_witness :
    (routeOp defaultState (str "TRANSFER") (str "9999") (str "1002")
      50).2 = .error (str "Conta de origem inexistente") ∧
    process defaultState (str "TRANSFER") (str "9999") (str "1002") 50 =
      (defaultState,
        .ok { status := str "ERROR",
              message := str "Conta de origem inexistente",
              balance := str "0" }) := by
  constructor
  · rfl
  · have hinv : ∀ b : ℚ,
        lookupAcc defaultState.accounts (str "9999") = some b → 0 ≤ b := by
      intro b hb
      have hnone : lookupAcc defaultState.accounts (str "9999") = none := rfl
      rw [hnone] at hb
      simp at hb
    exact c5_process_error_path defaultState (str "TRANSFER") (str "9999")
      (str "1002") 50 (str "Conta de origem inexistente") rfl hinv

/-- C1 (amended): for a well-formed request on existing accounts with a
legal amount — and, for TRANSFER, a destination distinct from the
source — `process` returns STATUS OK, the fixed per-operation message,
and the post-operation source balance formatted by `toFixed2`.  The
`0 ≤ b` hypothesis is the ledger's non-negative-balance invariant. -/
theorem c1_success_responses (s : BankState) (acct dst : Str) (amt b : ℚ)
    (hb : lookupAcc s.accounts acct = some b) (hb0 : 0 ≤ b) :
    process s (str "BALANCE") acct dst 0 =
      (s, .ok { status := str "OK",
                message := str "Saldo consultado com sucesso",
                balance := toFixed2 b }) ∧
    (0 < amt →
      (process s (str "DEPOSIT") acct dst amt).2 =
        .ok { status := str "OK",
              message := str "Depósito realizado com sucesso",
              balance := toFixed2 (b + amt) } ∧
      lookupAcc (process s (str "DEPOSIT") acct dst amt).1.accounts acct =
        some (b + amt)) ∧
    (0 < amt → amt ≤ b →
      (process s (str "WITHDRAW") acct dst amt).2 =
        .ok { status := str "OK", message := str "Saque efetuado",
              balance := toFixed2 (b - amt) } ∧
      lookupAcc (process s (str "WITHDRAW") acct dst amt).1.accounts acct =
        some (b - amt)) ∧
    (∀ bd, acct ≠ dst → lookupAcc s.accounts dst = some bd →
      0 < amt → amt ≤ b →
      (process s (str "TRANSFER") acct dst amt).2 =
        .ok { status := str "OK", message := str "Transferência concluída",
              balance := toFixed2 (b - amt) } ∧
      lookupAcc (process s (str "TRANSFER") acct dst amt).1.accounts acct =
        some (b - amt)) := by
  have hgb : getBalance s acct = (s, .ok b) := by simp [getBalance, hb]
  refine ⟨?_, ?_, ?_, ?_⟩
  · have hro : routeOp s (str "BALANCE") acct dst 0 =
        (s, .ok (b, str "Saldo consultado com sucesso")) := by
      rw [routeOp_balance, hgb]
      rfl
    exact process_ok_of_route hro (by decide) hb0
  · intro hamt
    have hnle : ¬ amt ≤ 0 := not_le.mpr hamt
    have hdep := deposit_eq hb hnle
    have hro : routeOp s (str "DEPOSIT") acct dst amt =
        ({ accounts := updateAcc s.accounts acct (b + amt),
           saved := updateAcc s.accounts acct (b + amt) },
         .ok (b + amt, str "Depósito realizado com sucesso")) := by
      rw [routeOp_deposit, hdep]
      rfl
    have hkey := process_ok_of_route hro (by decide)
      (add_nonneg hb0 hamt.le)
    constructor
    · rw [hkey]
    · rw [hkey]
      show lookupAcc (updateAcc s.accounts acct (b + amt)) acct =
        some (b + amt)
      rw [lookupAcc_update_self, hb]
      rfl
  · intro hamt hle
    have hnle : ¬ amt ≤ 0 := not_le.mpr hamt
    have hnlt : ¬ b < amt := not_lt.mpr hle
    have hwd := withdraw_eq hb hnle hnlt
    have hro : routeOp s (str "WITHDRAW") acct dst amt =
        ({ accounts := updateAcc s.accounts acct (b - amt),
           saved := updateAcc s.accounts acct (b - amt) },
         .ok (b - amt, str "Saque efetuado")) := by
      rw [routeOp_withdraw, hwd]
      rfl
    have hkey := process_ok_of_route hro (by decide) (sub_nonneg.mpr hle)
    constructor
    · rw [hkey]
    · rw [hkey]
      show lookupAcc (updateAcc s.accounts acct (b - amt)) acct =
        some (b - amt)
      rw [lookupAcc_update_self, hb]
      rfl
  · intro bd hneq hbd hamt hle
    have hnle : ¬ amt ≤ 0 := not_le.mpr hamt
    have hnlt : ¬ b < amt := not_lt.mpr hle
    have htr := transfer_eq hneq hb hbd hnle hnlt
    have hro : routeOp s (str "TRANSFER") acct dst amt =
        ({ accounts := updateAcc (updateAcc s.accounts acct (b - amt)) dst
             (bd + amt),
           saved := updateAcc (updateAcc s.accounts acct (b - amt)) dst
             (bd + amt) },
         .ok (b - amt, str "Transferência concluída")) := by
      rw [routeOp_transfer, htr]
      rfl
    have hkey := process_ok_of_route hro (by decide) (sub_nonneg.mpr hle)
    constructor
    · rw [hkey]
    · rw [hkey]
      show lookupAcc
        (updateAcc (updateAcc s.accounts acct (b - amt)) dst (bd + amt))
          acct = some (b - amt)
      rw [lookupAcc_update_ne _ _ _ _ hneq, lookupAcc_update_self, hb]
      rfl

/-- C1 witness: spec scenario 1 — `BALANCE` on account 1001 gives
`STATUS:OK`, the fixed message and `BALANCE:500.00`. -/
theorem c1_witness :
    lookupAcc defaultState.accounts (str "1001") = some 500 ∧
    process defaultState (str "BALANCE") (str "1001") [] 0 =
      (defaultState,
        .ok { status := str "OK",
              message := str "Saldo consultado com sucesso",
              balance := str "500.00" }) := by
  constructor
  · rfl
  · have h := (c1_success_responses defaultState (str "1001") [] 0 500
      (by rfl) (by decide)).1
    rw [h]
    with_unfolding_all rfl

/-- C1 counterexample: a TRANSFER whose source and destination are the
same existing account, with a legal amount (positive and within the
source balance), satisfies every hypothesis of C1 as stated and yet
produces STATUS ERROR, not OK. -/
theorem c1_counterexample :
    lookupAcc defaultState.accounts (str "1001") = some 500 ∧
    ((0 : ℚ) < 50 ∧ (50 : ℚ) ≤ 500) ∧
    (process defaultState (str "TRANSFER") (str "1001") (str "1001") 50).2 =
      .ok { status := str "ERROR",
            message := str "Conta de origem e destino não podem ser iguais",
            balance := str "500.00" } := by
  refine ⟨by rfl, ⟨by decide, by decide⟩, ?_⟩
  with_unfolding_all rfl

/-- C4: the source's `validate()` reports exactly the message of the
first failing rule of spec §4.2, scanned in the fixed order 1–7 (with
rules 5–7 inapplicable to TRANSFER), and passes when no rule fails. -/
theorem c4_validate_first_failing_rule (r : GBTPRequest) :
    validateReq r = (firstFailingRule r).map fun i => ruleMsg i r := by
  have hOPT : operationValidate (str "TRANSFER") = true := by decide
  have hOPD : operationValidate (str "DEPOSIT") = true := by decide
  have hOPW : operationValidate (str "WITHDRAW") = true := by decide
  have hOPB : operationValidate (str "BALANCE") = true := by decide
  have hTD : ¬ ((str "TRANSFER" : Str) = str "DEPOSIT") := by decide
  have hTW : ¬ ((str "TRANSFER" : Str) = str "WITHDRAW") := by decide
  have hTB : ¬ ((str "TRANSFER" : Str) = str "BALANCE") := by decide
  have hDT : ¬ ((str "DEPOSIT" : Str) = str "TRANSFER") := by decide
  have hDB : ¬ ((str "DEPOSIT" : Str) = str "BALANCE") := by decide
  have hDW : ¬ ((str "DEPOSIT" : Str) = str "WITHDRAW") := by decide
  have hWT : ¬ ((str "WITHDRAW" : Str) = str "TRANSFER") := by decide
  have hWB : ¬ ((str "WITHDRAW" : Str) = str "BALANCE") := by decide
  have hWD : ¬ ((str "WITHDRAW" : Str) = str "DEPOSIT") := by decide
  have hBT : ¬ ((str "BALANCE" : Str) = str "TRANSFER") := by decide
  have hBD : ¬ ((str "BALANCE" : Str) = str "DEPOSIT") := by decide
  have hBW : ¬ ((str "BALANCE" : Str) = str "WITHDRAW") := by decide
  by_cases hop : operationValidate r.operation
  case neg =>
    simp [validateReq, firstFailingRule, ruleFails, ruleMsg, List.find?, hop]
  case pos =>
  by_cases hid : idValidate r.account
  case neg =>
    simp [validateReq, firstFailingRule, ruleFails, ruleMsg, List.find?, hop,
      hid]
  case pos =>
  by_cases hval : valueValidate r.value
  case neg =>
    simp [validateReq, firstFailingRule, ruleFails, ruleMsg, List.find?, hop,
      hid, hval]
  case pos =>
  by_cases hT : r.operation = str "TRANSFER"
  · cases hdst : r.destination with
    | none =>
      simp [validateReq, firstFailingRule, ruleFails, ruleMsg, List.find?,
        hop, hid, hval, hT, hdst, hOPT, hTD, hTW, hTB]
    | some d =>
      by_cases hdv : idValidate d
      · by_cases hle0 : jsLe0 r.value
        · simp [validateReq, firstFailingRule, ruleFails, ruleMsg,
            List.find?, hop, hid, hval, hT, hdst, hdv, hle0, hOPT, hTD, hTW,
            hTB]
        · simp [validateReq, firstFailingRule, ruleFails, ruleMsg,
            List.find?, hop, hid, hval, hT, hdst, hdv, hle0, hOPT, hTD, hTW,
            hTB]
      · simp [validateReq, firstFailingRule, ruleFails, ruleMsg, List.find?,
          hop, hid, hval, hT, hdst, hdv, hOPT, hTD, hTW, hTB]
  · cases hdst : r.destination with
    | some d =>
      by_cases hde : trimChars d ≠ []
      · simp [validateReq, firstFailingRule, ruleFails, ruleMsg, List.find?,
          hop, hid, hval, hT, hdst, hde]
      · by_cases hdw : r.operation = str "DEPOSIT" ∨
            r.operation = str "WITHDRAW"
        · by_cases hle0 : jsLe0 r.value
          · rcases hdw with hD | hW
            · simp [validateReq, firstFailingRule, ruleFails, ruleMsg,
                List.find?, hop, hid, hval, hT, hdst, hde, hD, hle0, hOPD,
                hDT, hDB, hDW]
            · simp [validateReq, firstFailingRule, ruleFails, ruleMsg,
                List.find?, hop, hid, hval, hT, hdst, hde, hW, hle0, hOPW,
                hWT, hWB, hWD]
          · rcases hdw with hD | hW
            · simp [validateReq, firstFailingRule, ruleFails, ruleMsg,
                List.find?, hop, hid, hval, hT, hdst, hde, hD, hle0, hOPD,
                hDT, hDB, hDW]
            · simp [validateReq, firstFailingRule, ruleFails, ruleMsg,
                List.find?, hop, hid, hval, hT, hdst, hde, hW, hle0, hOPW,
                hWT, hWB, hWD]
        · have hnd := not_or.mp hdw
          by_cases hbal : r.operation = str "BALANCE"
          · by_cases hne0 : jsNe0 r.value
            · simp [validateReq, firstFailingRule, ruleFails, ruleMsg,
                List.find?, hop, hid, hval, hT, hdst, hde, hbal, hne0, hOPB,
                hBT, hBD, hBW]
            · simp [validateReq, firstFailingRule, ruleFails, ruleMsg,
                List.find?, hop, hid, hval, hT, hdst, hde, hbal, hne0, hOPB,
                hBT, hBD, hBW]
          · simp [validateReq, firstFailingRule, ruleFails, ruleMsg,
              List.find?, hop, hid, hval, hT, hdst, hde, hnd.1, hnd.2, hbal]
    | none =>
      by_cases hdw : r.operation = str "DEPOSIT" ∨
          r.operation = str "WITHDRAW"
      · by_cases hle0 : jsLe0 r.value
        · rcases hdw with hD | hW
          · simp [validateReq, firstFailingRule, ruleFails, ruleMsg,
              List.find?, hop, hid, hval, hT, hdst, hD, hle0, hOPD, hDT,
              hDB, hDW]
          · simp [validateReq, firstFailingRule, ruleFails, ruleMsg,
              List.find?, hop, hid, hval, hT, hdst, hW, hle0, hOPW, hWT,
              hWB, hWD]
        · rcases hdw with hD | hW
          · simp [validateReq, firstFailingRule, ruleFails, ruleMsg,
              List.find?, hop, hid, hval, hT, hdst, hD, hle0, hOPD, hDT,
              hDB, hDW]
          · simp [validateReq, firstFailingRule, ruleFails, ruleMsg,
              List.find?, hop, hid, hval, hT, hdst, hW, hle0, hOPW, hWT,
              hWB, hWD]
      · have hnd := not_or.mp hdw
        by_cases hbal : r.operation = str "BALANCE"
        · by_cases hne0 : jsNe0 r.value
          · simp [validateReq, firstFailingRule, ruleFails, ruleMsg,
              List.find?, hop, hid, hval, hT, hdst, hbal, hne0, hOPB, hBT,
              hBD, hBW]
          · simp [validateReq, firstFailingRule, ruleFails, ruleMsg,
              List.find?, hop, hid, hval, hT, hdst, hbal, hne0, hOPB, hBT,
              hBD, hBW]
        · simp [validateReq, firstFailingRule, ruleFails, ruleMsg,
            List.find?, hop, hid, hval, hT, hdst, hnd.1, hnd.2, hbal]

/-! ## Lemmas about the request constructor and decoder -/

theorem mkRequest_ok_valid {op acct dst v : Str} {r : GBTPRequest}
    (h : mkRequest op acct dst v = .ok r) : validateReq r = none := by
  simp only [mkRequest] at h
  revert h
  cases hv : validateReq { operation := upperChars op, account := acct,
                           destination := if dst = [] then none else some dst,
                           value := v } with
  | some e => intro h; exact absurd h (by simp)
  | none =>
    intro h
    have hr : ({ operation := upperChars op, account := acct,
                 destination := if dst = [] then none else some dst,
                 value := v } : GBTPRequest) = r := by
      simpa using h
    rw [← hr]
    exact hv

theorem fromLines_ok_shape {lines : List Str} {r : GBTPRequest}
    (h : fromLines lines = .ok r) :
    ∃ op acct dst v,
      extractValue lines (str "OPERATION") = .ok op ∧
      extractValue lines (str "ACCOUNT_ID") = .ok acct ∧
      extractValue lines (str "TO_ACCOUNT_ID") = .ok dst ∧
      extractValue lines (str "VALUE") = .ok v ∧
      mkRequest (upperChars op) acct dst v = .ok r := by
  unfold fromLines at h
  cases h1 : extractValue lines (str "OPERATION") with
  | error e => simp [h1] at h
  | ok op =>
    cases h2 : extractValue lines (str "ACCOUNT_ID") with
    | error e => simp [h1, h2] at h
    | ok acct =>
      cases h3 : extractValue lines (str "TO_ACCOUNT_ID") with
      | error e => simp [h1, h2, h3] at h
      | ok dst =>
        cases h4 : extractValue lines (str "VALUE") with
        | error e => simp [h1, h2, h3, h4] at h
        | ok v =>
          cases h5 : mkRequest (upperChars op) acct dst v with
          | error m => simp [h1, h2, h3, h4, h5] at h
          | ok r2 =>
            simp [h1, h2, h3, h4, h5] at h
            exact ⟨op, acct, dst, v, rfl, rfl, rfl, rfl,
              h5.trans (by simp [h])⟩

theorem validateReq_none_parts {r : GBTPRequest} (h : validateReq r = none) :
    operationValidate r.operation = true ∧ idValidate r.account = true ∧
    valueValidate r.value = true ∧
    (r.operation = str "TRANSFER" →
      ∃ d, r.destination = some d ∧ idValidate d = true ∧
        jsLe0 r.value = false) ∧
    (r.operation ≠ str "TRANSFER" →
      ∀ d, r.destination = some d → trimChars d = []) := by
  unfold validateReq at h
  by_cases hop : operationValidate r.operation
  case neg => simp [hop] at h
  case pos =>
  by_cases hid : idValidate r.account
  case neg => simp [hop, hid] at h
  case pos =>
  by_cases hval : valueValidate r.value
  case neg => simp [hop, hid, hval] at h
  case pos =>
  have hOPT : operationValidate (str "TRANSFER") = true := by decide
  refine ⟨hop, hid, hval, ?_, ?_⟩
  · intro hT
    cases hdst : r.destination with
    | none => simp [hop, hid, hval, hT, hdst, hOPT] at h
    | some d =>
      by_cases hdv : idValidate d
      · by_cases hle0 : jsLe0 r.value
        · simp [hop, hid, hval, hT, hdst, hdv, hle0, hOPT] at h
        · refine ⟨d, rfl, hdv, by simpa using hle0⟩
      · simp [hop, hid, hval, hT, hdst, hdv, hOPT] at h
  · intro hT d hdst
    by_cases hde : trimChars d = []
    · exact hde
    · simp [hop, hid, hval, hT, hdst, hde] at h

/-- C10: the `GBTPRequest` constructor runs `validate()` before
returning, so every request it yields — in particular every request
produced by `fromString` — satisfies the cross-field rules: allowed
operation, valid source id and amount, a present and valid destination
for TRANSFER (with positive amount), and at most an empty-trimmed
destination for the other operations. -/
theorem c10_constructor_establishes_validity
    (raw op acct dst v : Str) (r r2 : GBTPRequest) :
    (mkRequest op acct dst v = .ok r → validateReq r = none) ∧
    (fromString raw = .ok r2 →
      validateReq r2 = none ∧
      operationValidate r2.operation = true ∧
      idValidate r2.account = true ∧
      valueValidate r2.value = true ∧
      (r2.operation = str "TRANSFER" →
        ∃ d, r2.destination = some d ∧ idValidate d = true ∧
          jsLe0 r2.value = false) ∧
      (r2.operation ≠ str "TRANSFER" →
        ∀ d, r2.destination = some d → trimChars d = [])) := by
  constructor
  · intro h
    exact mkRequest_ok_valid h
  · intro h
    obtain ⟨o, a, d, w, _, _, _, _, h5⟩ :=
      fromLines_ok_shape (h : fromLines (splitCh '\n' raw) = .ok r2)
    have hv := mkRequest_ok_valid h5
    obtain ⟨p1, p2, p3, p4, p5⟩ := validateReq_none_parts hv
    exact ⟨hv, p1, p2, p3, p4, p5⟩

/-- C10 witness: the balance request of spec scenario 1 decodes to a
request that passes `validate()`. -/
theorem c10_witness :
    fromString
      (str "OPERATION:BALANCE\nACCOUNT_ID:1001\nTO_ACCOUNT_ID:\nVALUE:0") =
      .ok { operation := str "BALANCE", account := str "1001",
            destination := none, value := str "0" } ∧
    validateReq { operation := str "BALANCE", account := str "1001",
                  destination := none, value := str "0" } = none := by
  have hdec : fromString
      (str "OPERATION:BALANCE\nACCOUNT_ID:1001\nTO_ACCOUNT_ID:\nVALUE:0") =
      .ok { operation := str "BALANCE", account := str "1001",
            destination := none, value := str "0" } := by
    with_unfolding_all rfl
  exact ⟨hdec,
    ((c10_constructor_establishes_validity
      (str "OPERATION:BALANCE\nACCOUNT_ID:1001\nTO_ACCOUNT_ID:\nVALUE:0")
      [] [] [] [] { operation := str "BALANCE", account := str "1001",
                     destination := none, value := str "0" }
      { operation := str "BALANCE", account := str "1001",
        destination := none, value := str "0" }).2 hdec).1⟩

/-! ## Lemmas about splitting and finding lines -/

theorem find?_middle_not {α : Type} (p : α → Bool) (pre suf : List α) (x : α)
    (hx : p x = false) :
    List.find? p (pre ++ x :: suf) = List.find? p (pre ++ suf) := by
  induction pre with
  | nil => simp [List.find?_cons, hx]
  | cons a t ih =>
    by_cases ha : p a
    · simp [List.find?_cons_of_pos, ha]
    · simp only [List.cons_append]
      rw [List.find?_cons_of_neg _ ha, List.find?_cons_of_neg _ ha]
      exact ih

theorem find?_first_match {α : Type} (p : α → Bool) (pre suf : List α) (x : α)
    (hpre : ∀ a ∈ pre, p a = false) (hx : p x = true) :
    List.find? p (pre ++ x :: suf) = some x := by
  induction pre with
  | nil => simp [List.find?_cons, hx]
  | cons a t ih =>
    have ha : p a = false := hpre a (List.mem_cons_self a t)
    simp only [List.cons_append]
    rw [List.find?_cons_of_neg _ (by simp [ha])]
    exact ih fun b hb => hpre b (List.mem_cons_of_mem a hb)

theorem splitCh_no_sep {c : Char} {xs : Str} (h : c ∉ xs) :
    splitCh c xs = [xs] := by
  induction xs with
  | nil => rfl
  | cons x t ih =>
    have hx : ¬ x = c := fun hh => h (hh ▸ List.mem_cons_self x t)
    have ht : c ∉ t := fun hh => h (List.mem_cons_of_mem x hh)
    simp only [splitCh, if_neg hx, ih ht]

theorem splitCh_append {c : Char} {xs : Str} (ys : Str) (h : c ∉ xs) :
    splitCh c (xs ++ c :: ys) = xs :: splitCh c ys := by
  induction xs with
  | nil => simp [splitCh]
  | cons x t ih =>
    have hx : ¬ x = c := fun hh => h (hh ▸ List.mem_cons_self x t)
    have ht : c ∉ t := fun hh => h (List.mem_cons_of_mem x hh)
    show splitCh c (x :: (t ++ c :: ys)) = (x :: t) :: splitCh c ys
    simp only [splitCh, if_neg hx]
    rw [ih ht]

theorem splitCh_ne_nil (c : Char) (xs : Str) : splitCh c xs ≠ [] := by
  cases xs with
  | nil => simp [splitCh]
  | cons x t =>
    simp only [splitCh]
    by_cases hx : x = c
    · simp [hx]
    · rw [if_neg hx]
      cases h : splitCh c t <;> simp

/-- The required request keys, in extraction order. -/
def requestKeys : List Str :=
  [str "OPERATION", str "ACCOUNT_ID", str "TO_ACCOUNT_ID", str "VALUE"]

/-- C8 (amended): decoding splits the raw text on newlines and binds
each required key from the *first* line that starts with the key text:
the line is split on *every* colon and the *second* colon-field,
trimmed, is the bound value (text after a second colon is dropped); a
matching line with no colon crashes decoding with a TypeError rather
than a protocol error; a line starting with none of the required key
texts never affects the decoded result; and extraction fails with the
MalformedMessage missing-key error exactly when no line starts with the
key. -/
theorem c8_extraction_behaviour (lines pre suf : List Str)
    (junk l key seg1 seg2 rest : Str) :
    (extractValue lines key = .error (.missingKey key) ↔
      ∀ l2 ∈ lines, key.isPrefixOf l2 = false) ∧
    ((∀ k ∈ requestKeys, k.isPrefixOf junk = false) →
      fromLines (pre ++ junk :: suf) = fromLines (pre ++ suf)) ∧
    ((∀ p ∈ pre, key.isPrefixOf p = false) → key.isPrefixOf l = true →
      l = seg1 ++ ':' :: (seg2 ++ rest) → ':' ∉ seg1 → ':' ∉ seg2 →
      (rest = [] ∨ ∃ rest2, rest = ':' :: rest2) →
      extractValue (pre ++ l :: suf) key = .ok (trimChars seg2)) ∧
    ((∀ p ∈ pre, key.isPrefixOf p = false) → key.isPrefixOf l = true →
      ':' ∉ l →
      extractValue (pre ++ l :: suf) key = .error .crash) := by
  refine ⟨?_, ?_, ?_, ?_⟩
  · constructor
    · intro h l2 hl2
      cases hb : List.isPrefixOf key l2
      · rfl
      · exfalso
        unfold extractValue at h
        cases hf : lines.find? (fun l3 => key.isPrefixOf l3) with
        | none =>
          have hnone := List.find?_eq_none.mp hf l2 hl2
          simp [hb] at hnone
        | some l3 =>
          rw [hf] at h
          cases hsp : (splitCh ':' l3)[1]? <;> simp [hsp] at h
    · intro h
      unfold extractValue
      rw [List.find?_eq_none.mpr fun l2 hl2 => by simp [h l2 hl2]]
  · intro hjunk
    have hE : ∀ k ∈ requestKeys,
        extractValue (pre ++ junk :: suf) k = extractValue (pre ++ suf) k := by
      intro k hk
      unfold extractValue
      rw [find?_middle_not _ _ _ _ (hjunk k hk)]
    unfold fromLines
    rw [hE (str "OPERATION") (by simp [requestKeys]),
      hE (str "ACCOUNT_ID") (by simp [requestKeys]),
      hE (str "TO_ACCOUNT_ID") (by simp [requestKeys]),
      hE (str "VALUE") (by simp [requestKeys])]
  · intro hpre hl hsplit hs1 hs2 hrest
    unfold extractValue
    rw [find?_first_match _ _ _ _ hpre hl]
    have hsp : (splitCh ':' l)[1]? = some seg2 := by
      rw [hsplit, splitCh_append _ hs1]
      rcases hrest with rfl | ⟨rest2, rfl⟩
      · rw [List.append_nil, splitCh_no_sep hs2]
        simp
      · rw [splitCh_append _ hs2]
        simp
    simp [hsp]
  · intro hpre hl hcolon
    unfold extractValue
    rw [find?_first_match _ _ _ _ hpre hl]
    simp [splitCh_no_sep hcolon]

/-- C8 witness: a line whose key is unknown is ignored, exercised
through the missing-key characterization: with only a `X:1` line,
extracting `OPERATION` fails with the missing-key error. -/
theorem c8_witness :
    extractValue [str "X:1"] (str "OPERATION") =
      .error (.missingKey (str "OPERATION")) :=
  (c8_extraction_behaviour [str "X:1"] [] [] [] [] (str "OPERATION") [] []
    []).1.mpr (by decide)

/-- C8 counterexample: on a raw request whose VALUE line is
`VALUE:0:7`, the trimmed text following the first colon is `0:7`, yet
decoding binds VALUE to `0` (the field between the first and second
colons) — and the request still decodes successfully. -/
theorem c8_counterexample :
    fromString
      (str "OPERATION:BALANCE\nACCOUNT_ID:1001\nTO_ACCOUNT_ID:\nVALUE:0:7") =
      .ok { operation := str "BALANCE", account := str "1001",
            destination := none, value := str "0" } ∧
    trimChars (str "0:7") = str "0:7" ∧ (str "0" : Str) ≠ str "0:7" := by
  refine ⟨by with_unfolding_all rfl, by decide, by decide⟩

/-! ## Trimming and splitting lemmas for the codec round-trip -/

theorem dropWhile_head_false {p : Char → Bool} {l : Str} {a : Char} {t : Str}
    (h : l.dropWhile p = a :: t) : p a = false := by
  have hh := List.head?_dropWhile_not p l
  rw [h] at hh
  exact hh

theorem dropWhile_dropWhile {p : Char → Bool} (l : Str) :
    (l.dropWhile p).dropWhile p = l.dropWhile p := by
  cases hd : l.dropWhile p with
  | nil => rfl
  | cons a t =>
    rw [List.dropWhile_cons_of_neg (by simp [dropWhile_head_false hd])]

theorem dropWhile_getLast? {p : Char → Bool} :
    ∀ x : Str, x.dropWhile p ≠ [] → (x.dropWhile p).getLast? = x.getLast? := by
  intro x
  induction x with
  | nil => intro h; simp at h
  | cons a t ih =>
    intro hne
    by_cases ha : p a
    · rw [List.dropWhile_cons_of_pos ha] at hne ⊢
      have ht : t ≠ [] := by
        intro hh
        rw [hh] at hne
        simp at hne
      rw [ih hne]
      cases t with
      | nil => exact absurd rfl ht
      | cons b t2 => rw [List.getLast?_cons_cons]
    · rw [List.dropWhile_cons_of_neg ha]

theorem trimChars_idem (l : Str) : trimChars (trimChars l) = trimChars l := by
  unfold trimChars
  have hA : ((l.dropWhile wsB).reverse.dropWhile wsB).reverse.dropWhile wsB =
      ((l.dropWhile wsB).reverse.dropWhile wsB).reverse := by
    cases hm : ((l.dropWhile wsB).reverse.dropWhile wsB).reverse with
    | nil => rfl
    | cons a t =>
      have h1 : ((l.dropWhile wsB).reverse.dropWhile wsB).reverse.head? =
          some a := by rw [hm]; rfl
      rw [List.head?_reverse] at h1
      have hwne : (l.dropWhile wsB).reverse.dropWhile wsB ≠ [] := by
        intro hh
        rw [hh] at h1
        simp at h1
      rw [dropWhile_getLast? _ hwne, List.getLast?_reverse] at h1
      have hh := List.head?_dropWhile_not wsB l
      cases hd : (l.dropWhile wsB).head? with
      | none => rw [hd] at h1; simp at h1
      | some c =>
        rw [hd] at h1 hh
        have hac : c = a := by simpa using h1
        rw [List.dropWhile_cons_of_neg (by simp [← hac, hh])]
  rw [hA, List.reverse_reverse, dropWhile_dropWhile]

theorem trimChars_subset (l : Str) : ∀ x ∈ trimChars l, x ∈ l := by
  intro x hx
  unfold trimChars at hx
  rw [List.mem_reverse] at hx
  have hx2 := (List.dropWhile_sublist wsB).subset hx
  rw [List.mem_reverse] at hx2
  exact (List.dropWhile_sublist wsB).subset hx2

theorem splitCh_seg_not_mem {c : Char} :
    ∀ {l : Str} {seg : Str}, seg ∈ splitCh c l → c ∉ seg := by
  intro l
  induction l with
  | nil =>
    intro seg hseg
    simp [splitCh] at hseg
    simp [hseg]
  | cons x xs ih =>
    intro seg hseg
    simp only [splitCh] at hseg
    by_cases hx : x = c
    · rw [if_pos hx] at hseg
      rcases List.mem_cons.mp hseg with rfl | hseg2
      · simp
      · exact ih hseg2
    · rw [if_neg hx] at hseg
      cases hs : splitCh c xs with
      | nil => exact absurd hs (splitCh_ne_nil c xs)
      | cons s ss =>
        rw [hs] at hseg
        rcases List.mem_cons.mp hseg with rfl | hseg2
        · intro hmem
          rcases List.mem_cons.mp hmem with rfl | hmem2
          · exact hx rfl
          · exact ih (hs ▸ List.mem_cons_self s ss) hmem2
        · exact ih (hs ▸ List.mem_cons_of_mem s hseg2)

theorem splitCh_seg_subset {c : Char} :
    ∀ {l : Str} {seg : Str}, seg ∈ splitCh c l → ∀ y ∈ seg, y ∈ l := by
  intro l
  induction l with
  | nil =>
    intro seg hseg
    simp [splitCh] at hseg
    simp [hseg]
  | cons x xs ih =>
    intro seg hseg y hy
    simp only [splitCh] at hseg
    by_cases hx : x = c
    · rw [if_pos hx] at hseg
      rcases List.mem_cons.mp hseg with rfl | hseg2
      · simp at hy
      · exact List.mem_cons_of_mem x (ih hseg2 y hy)
    · rw [if_neg hx] at hseg
      cases hs : splitCh c xs with
      | nil => exact absurd hs (splitCh_ne_nil c xs)
      | cons s ss =>
        rw [hs] at hseg
        rcases List.mem_cons.mp hseg with rfl | hseg2
        · rcases List.mem_cons.mp hy with rfl | hy2
          · exact List.mem_cons_self y xs
          · exact List.mem_cons_of_mem x
              (ih (hs ▸ List.mem_cons_self s ss) y hy2)
        · exact List.mem_cons_of_mem x
            (ih (hs ▸ List.mem_cons_of_mem s hseg2) y hy)

theorem extractValue_ok_good {lines : List Str} {key v : Str}
    (h : extractValue lines key = .ok v)
    (hnl : ∀ l2 ∈ lines, '\n' ∉ l2) :
    trimChars v = v ∧ ':' ∉ v ∧ '\n' ∉ v := by
  unfold extractValue at h
  cases hf : lines.find? (fun l2 => key.isPrefixOf l2) with
  | none => rw [hf] at h; simp at h
  | some l2 =>
    rw [hf] at h
    cases hsp : (splitCh ':' l2)[1]? with
    | none => simp [hsp] at h
    | some w =>
      simp [hsp] at h
      have hwmem : w ∈ splitCh ':' l2 := List.getElem?_mem hsp
      have hl2 : l2 ∈ lines := List.mem_of_find?_eq_some hf
      have hcolon : ':' ∉ w := splitCh_seg_not_mem hwmem
      have hnl2 : '\n' ∉ w := fun hmem =>
        hnl l2 hl2 (splitCh_seg_subset hwmem _ hmem)
      refine ⟨?_, ?_, ?_⟩
      · rw [← h]; exact trimChars_idem w
      · rw [← h]; exact fun hc => hcolon (trimChars_subset w _ hc)
      · rw [← h]; exact fun hc => hnl2 (trimChars_subset w _ hc)

theorem isPrefixOf_append_self (k rest : Str) :
    List.isPrefixOf k (k ++ rest) = true := by
  induction k with
  | nil => simp [List.isPrefixOf]
  | cons a t ih => simp [List.isPrefixOf, ih]

theorem not_prefix_head {a b : Char} (hab : ¬ a = b) (ka lb : Str) :
    List.isPrefixOf (a :: ka) (b :: lb) = false := by
  simp [List.isPrefixOf, hab]

theorem extractValue_hit {key : Str} (pre suf : List Str)
    (l seg1 seg2 rest : Str)
    (hpre : ∀ p ∈ pre, key.isPrefixOf p = false)
    (hl : key.isPrefixOf l = true)
    (hsplit : l = seg1 ++ ':' :: (seg2 ++ rest))
    (hs1 : ':' ∉ seg1) (hs2 : ':' ∉ seg2)
    (hrest : rest = [] ∨ ∃ rest2, rest = ':' :: rest2) :
    extractValue (pre ++ l :: suf) key = .ok (trimChars seg2) := by
  unfold extractValue
  rw [find?_first_match _ _ _ _ hpre hl]
  have hsp : (splitCh ':' l)[1]? = some seg2 := by
    rw [hsplit, splitCh_append _ hs1]
    rcases hrest with rfl | ⟨rest2, rfl⟩
    · rw [List.append_nil, splitCh_no_sep hs2]
      simp
    · rw [splitCh_append _ hs2]
      simp
  simp [hsp]

theorem mkRequest_ok_fields {op acct dst v : Str} {r : GBTPRequest}
    (h : mkRequest op acct dst v = .ok r) :
    r = { operation := upperChars op, account := acct,
          destination := if dst = [] then none else some dst,
          value := v } := by
  simp only [mkRequest] at h
  revert h
  cases hv : validateReq { operation := upperChars op, account := acct,
                           destination := if dst = [] then none else some dst,
                           value := v } with
  | some e => intro h; exact absurd h (by simp)
  | none =>
    intro h
    exact ((by simpa using h :
      ({ operation := upperChars op, account := acct,
         destination := if dst = [] then none else some dst,
         value := v } : GBTPRequest) = r)).symm

theorem operationValidate_cases {t : Str} (h : operationValidate t = true) :
    t = str "TRANSFER" ∨ t = str "WITHDRAW" ∨ t = str "DEPOSIT" ∨
    t = str "BALANCE" := by
  have hmem : t ∈ allowedTypes := by
    simpa [operationValidate, List.contains_iff_exists_mem_beq,
      beq_iff_eq] using h
  simpa [allowedTypes] using hmem

theorem mkRequest_self {r : GBTPRequest} (hval : validateReq r = none)
    (hop : upperChars r.operation = r.operation)
    (hdstne : ∀ d, r.destination = some d → d ≠ []) :
    mkRequest r.operation r.account (r.destination.getD []) r.value =
      .ok r := by
  have hrec : ({ operation := upperChars r.operation, account := r.account,
                 destination := if (r.destination.getD []) = [] then none
                                else some (r.destination.getD []),
                 value := r.value } : GBTPRequest) = r := by
    obtain ⟨o, a, dd, v⟩ := r
    simp only at hop ⊢
    rw [hop]
    cases hd : dd with
    | none => simp
    | some d =>
      have hne := hdstne d (by simp [hd])
      simp [hne]
  simp only [mkRequest, hrec, hval]

theorem opLine_eq (X : Str) :
    str "OPERATION:" ++ X = str "OPERATION" ++ (':' :: X) := rfl

theorem acctLine_eq (X : Str) :
    str "ACCOUNT_ID:" ++ X = str "ACCOUNT_ID" ++ (':' :: X) := rfl

theorem dstLine_eq (X : Str) :
    str "TO_ACCOUNT_ID:" ++ X = str "TO_ACCOUNT_ID" ++ (':' :: X) := rfl

theorem valLine_eq (X : Str) :
    str "VALUE:" ++ X = str "VALUE" ++ (':' :: X) := rfl

/-- C9: if a raw text decodes to a structured request `r`, then encoding
`r` with `toString` and decoding again yields exactly `r` (same
operation, account, destination-or-absent, and value text). -/
theorem c9_decode_encode_roundtrip (raw : Str) (r : GBTPRequest)
    (h : fromString raw = .ok r) :
    fromString (toStringReq r) = .ok r := by
  obtain ⟨op0, acct0, dst0, v0, h1, h2, h3, h4, h5⟩ :=
    fromLines_ok_shape (h : fromLines (splitCh '\n' raw) = .ok r)
  have hval := mkRequest_ok_valid h5
  have hfields := mkRequest_ok_fields h5
  have hnl : ∀ l2 ∈ splitCh '\n' raw, '\n' ∉ l2 := fun l2 hl2 =>
    splitCh_seg_not_mem hl2
  have hg2 := extractValue_ok_good h2 hnl
  have hg3 := extractValue_ok_good h3 hnl
  have hg4 := extractValue_ok_good h4 hnl
  have hacct : r.account = acct0 := by rw [hfields]
  have hvalue : r.value = v0 := by rw [hfields]
  have hdst : r.destination = if dst0 = [] then none else some dst0 := by
    rw [hfields]
  have hopv : operationValidate r.operation = true :=
    (validateReq_none_parts hval).1
  have hopgood : trimChars r.operation = r.operation ∧
      ':' ∉ r.operation ∧ '\n' ∉ r.operation ∧
      upperChars r.operation = r.operation := by
    rcases operationValidate_cases hopv with hOP | hOP | hOP | hOP <;>
      rw [hOP] <;> exact ⟨by decide, by decide, by decide, by decide⟩
  have hacctgood : trimChars r.account = r.account := by
    rw [hacct]; exact hg2.1
  have hacctc : ':' ∉ r.account := by rw [hacct]; exact hg2.2.1
  have hacctn : '\n' ∉ r.account := by rw [hacct]; exact hg2.2.2
  have hvgood : trimChars r.value = r.value := by rw [hvalue]; exact hg4.1
  have hvc : ':' ∉ r.value := by rw [hvalue]; exact hg4.2.1
  have hvn : '\n' ∉ r.value := by rw [hvalue]; exact hg4.2.2
  have hdfield : trimChars (r.destination.getD []) = r.destination.getD [] ∧
      ':' ∉ (r.destination.getD []) ∧ '\n' ∉ (r.destination.getD []) := by
    rw [hdst]
    by_cases hd0 : dst0 = []
    · rw [if_pos hd0]
      exact ⟨rfl, by simp, by simp⟩
    · rw [if_neg hd0]
      exact hg3
  have hdstne : ∀ d, r.destination = some d → d ≠ [] := by
    intro d hd
    rw [hdst] at hd
    by_cases hd0 : dst0 = []
    · rw [if_pos hd0] at hd
      simp at hd
    · rw [if_neg hd0] at hd
      have hdd : dst0 = d := by simpa using hd
      rw [← hdd]
      exact hd0
  have hnl1 : '\n' ∉ str "OPERATION:" ++ r.operation := fun hm =>
    (List.mem_append.mp hm).elim (fun hx => absurd hx (by decide))
      hopgood.2.2.1
  have hnl2 : '\n' ∉ str "ACCOUNT_ID:" ++ r.account := fun hm =>
    (List.mem_append.mp hm).elim (fun hx => absurd hx (by decide)) hacctn
  have hnl3 : '\n' ∉ str "TO_ACCOUNT_ID:" ++ r.destination.getD [] :=
    fun hm => (List.mem_append.mp hm).elim
      (fun hx => absurd hx (by decide)) hdfield.2.2
  have hnl4 : '\n' ∉ str "VALUE:" ++ r.value := fun hm =>
    (List.mem_append.mp hm).elim (fun hx => absurd hx (by decide)) hvn
  have hsplit : splitCh '\n' (toStringReq r) =
      [str "OPERATION:" ++ r.operation,
       str "ACCOUNT_ID:" ++ r.account,
       str "TO_ACCOUNT_ID:" ++ r.destination.getD [],
       str "VALUE:" ++ r.value] := by
    simp only [toStringReq]
    rw [splitCh_append _ hnl1, splitCh_append _ hnl2, splitCh_append _ hnl3,
      splitCh_no_sep hnl4]
  have pf_AO : List.isPrefixOf (str "ACCOUNT_ID")
      (str "OPERATION:" ++ r.operation) = false :=
    not_prefix_head (by decide) (str "CCOUNT_ID")
      (str "PERATION:" ++ r.operation)
  have pf_TO : List.isPrefixOf (str "TO_ACCOUNT_ID")
      (str "OPERATION:" ++ r.operation) = false :=
    not_prefix_head (by decide) (str "O_ACCOUNT_ID")
      (str "PERATION:" ++ r.operation)
  have pf_TA : List.isPrefixOf (str "TO_ACCOUNT_ID")
      (str "ACCOUNT_ID:" ++ r.account) = false :=
    not_prefix_head (by decide) (str "O_ACCOUNT_ID")
      (str "CCOUNT_ID:" ++ r.account)
  have pf_VO : List.isPrefixOf (str "VALUE")
      (str "OPERATION:" ++ r.operation) = false :=
    not_prefix_head (by decide) (str "ALUE")
      (str "PERATION:" ++ r.operation)
  have pf_VA : List.isPrefixOf (str "VALUE")
      (str "ACCOUNT_ID:" ++ r.account) = false :=
    not_prefix_head (by decide) (str "ALUE") (str "CCOUNT_ID:" ++ r.account)
  have pf_VT : List.isPrefixOf (str "VALUE")
      (str "TO_ACCOUNT_ID:" ++ r.destination.getD []) = false :=
    not_prefix_head (by decide) (str "ALUE")
      (str "O_ACCOUNT_ID:" ++ r.destination.getD [])
  have e1 : extractValue
      [str "OPERATION:" ++ r.operation,
       str "ACCOUNT_ID:" ++ r.account,
       str "TO_ACCOUNT_ID:" ++ r.destination.getD [],
       str "VALUE:" ++ r.value] (str "OPERATION") =
      .ok (trimChars r.operation) :=
    extractValue_hit []
      [str "ACCOUNT_ID:" ++ r.account,
       str "TO_ACCOUNT_ID:" ++ r.destination.getD [],
       str "VALUE:" ++ r.value]
      (str "OPERATION:" ++ r.operation) (str "OPERATION") r.operation []
      (by simp)
      (by rw [opLine_eq]
          exact isPrefixOf_append_self _ _)
      (by rw [List.append_nil]; exact opLine_eq _)
      (by decide) hopgood.2.1 (Or.inl rfl)
  have e2 : extractValue
      [str "OPERATION:" ++ r.operation,
       str "ACCOUNT_ID:" ++ r.account,
       str "TO_ACCOUNT_ID:" ++ r.destination.getD [],
       str "VALUE:" ++ r.value] (str "ACCOUNT_ID") =
      .ok (trimChars r.account) :=
    extractValue_hit [str "OPERATION:" ++ r.operation]
      [str "TO_ACCOUNT_ID:" ++ r.destination.getD [],
       str "VALUE:" ++ r.value]
      (str "ACCOUNT_ID:" ++ r.account) (str "ACCOUNT_ID") r.account []
      (by intro p hp
          rcases List.mem_singleton.mp hp with rfl
          exact pf_AO)
      (by rw [acctLine_eq]
          exact isPrefixOf_append_self _ _)
      (by rw [List.append_nil]; exact acctLine_eq _)
      (by decide) hacctc (Or.inl rfl)
  have e3 : extractValue
      [str "OPERATION:" ++ r.operation,
       str "ACCOUNT_ID:" ++ r.account,
       str "TO_ACCOUNT_ID:" ++ r.destination.getD [],
       str "VALUE:" ++ r.value] (str "TO_ACCOUNT_ID") =
      .ok (trimChars (r.destination.getD [])) :=
    extractValue_hit
      [str "OPERATION:" ++ r.operation, str "ACCOUNT_ID:" ++ r.account]
      [str "VALUE:" ++ r.value]
      (str "TO_ACCOUNT_ID:" ++ r.destination.getD []) (str "TO_ACCOUNT_ID")
      (r.destination.getD []) []
      (by intro p hp
          rcases List.mem_cons.mp hp with rfl | hp2
          · exact pf_TO
          · rcases List.mem_singleton.mp hp2 with rfl
            exact pf_TA)
      (by rw [dstLine_eq]
          exact isPrefixOf_append_self _ _)
      (by rw [List.append_nil]; exact dstLine_eq _)
      (by decide) hdfield.2.1 (Or.inl rfl)
  have e4 : extractValue
      [str "OPERATION:" ++ r.operation,
       str "ACCOUNT_ID:" ++ r.account,
       str "TO_ACCOUNT_ID:" ++ r.destination.getD [],
       str "VALUE:" ++ r.value] (str "VALUE") =
      .ok (trimChars r.value) :=
    extractValue_hit
      [str "OPERATION:" ++ r.operation, str "ACCOUNT_ID:" ++ r.account,
       str "TO_ACCOUNT_ID:" ++ r.destination.getD []]
      []
      (str "VALUE:" ++ r.value) (str "VALUE") r.value []
      (by intro p hp
          rcases List.mem_cons.mp hp with rfl | hp2
          · exact pf_VO
          · rcases List.mem_cons.mp hp2 with rfl | hp3
            · exact pf_VA
            · rcases List.mem_singleton.mp hp3 with rfl
              exact pf_VT)
      (by rw [valLine_eq]
          exact isPrefixOf_append_self _ _)
      (by rw [List.append_nil]; exact valLine_eq _)
      (by decide) hvc (Or.inl rfl)
  show fromLines (splitCh '\n' (toStringReq r)) = .ok r
  rw [hsplit]
  unfold fromLines
  rw [e1, e2, e3, e4]
  simp only [hopgood.1, hacctgood, hdfield.1, hvgood, hopgood.2.2.2]
  rw [mkRequest_self hval hopgood.2.2.2 hdstne]

/-- C9 witness: the request of spec scenario 1 decodes, and re-decoding
its re-encoding yields the same structured request. -/
theorem c9_witness :
    fromString
      (str "OPERATION:BALANCE\nACCOUNT_ID:1001\nTO_ACCOUNT_ID:\nVALUE:0") =
      .ok { operation := str "BALANCE", account := str "1001",
            destination := none, value := str "0" } ∧
    fromString (toStringReq
      { operation := str "BALANCE", account := str "1001",
        destination := none, value := str "0" }) =
      .ok { operation := str "BALANCE", account := str "1001",
            destination := none, value := str "0" } := by
  have hdec : fromString
      (str "OPERATION:BALANCE\nACCOUNT_ID:1001\nTO_ACCOUNT_ID:\nVALUE:0") =
      .ok { operation := str "BALANCE", account := str "1001",
            destination := none, value := str "0" } := by
    with_unfolding_all rfl
  exact ⟨hdec, c9_decode_encode_roundtrip _ _ hdec⟩
